import Mathlib

/-!
# The pug terminal dashboard

A shallow embedding of `internal/tui/tabs.go`, followed by the minimum
dimensions (`internal/tui/dimensions.go`), the parent columns and cells
(`internal/tui/columns.go`), the short help, the top-level model
(`internal/tui/top/model.go`) and the main model (`internal/main_model.go`).

* Go `int` is a 64-bit two's complement integer.  Values are modelled as `Int`
  and every addition or subtraction the source performs on them is wrapped by
  `wrapInt`.  The one exception is `len(m.Tabs) - 1`: a slice length lies in
  `[0, 2^63 - 1]`, so that subtraction cannot wrap and is written exactly.
* `tea.Msg` is an interface; `TabSet.Update` switches on its dynamic type, so
  a message is a `tea.KeyMsg`, a `BodyResizeMsg`, or a value of any other type.
* `tea.Cmd` is an opaque function value that may be nil; `tea.Batch` belongs to
  the bubbletea library and is kept as an uninterpreted constructor.
* The child `Model` and the `Maker` are interfaces whose implementations may
  have side effects.  Their methods are passed in as records of functions that
  thread an explicit world state `ω`, so that whether, how often and in which
  order they are called is observable in the final world.
* `keys.Navigation` is declared in the package `internal/tui/keys`; the two
  bindings read by `TabSet.Update` are taken as a parameter.
* Indexing a slice out of range panics in Go; the embedding returns `none`.
-/

namespace tui

/-- Lower bound of Go's `int` on 64-bit platforms. -/
def minInt : Int := -9223372036854775808

/-- Upper bound of Go's `int` on 64-bit platforms. -/
def maxInt : Int := 9223372036854775807

/-- Two's complement wrap-around of a mathematical integer into Go's `int`. -/
def wrapInt (x : Int) : Int :=
  (x + 9223372036854775808) % 18446744073709551616 - 9223372036854775808

/-- Height in rows of the tab header: `const tabHeaderHeight = 2`. -/
def tabHeaderHeight : Int := 2

/-- Values of `tea.Cmd`: nil, a command made by a child model, or the result
of `tea.Batch` applied to a list of commands. -/
inductive Cmd (κ : Type) where
  | nil : Cmd κ
  | run (k : κ) : Cmd κ
  | batch (cs : List (Cmd κ)) : Cmd κ

/-- Values of `tea.Msg` by dynamic type, as switched on in `TabSet.Update`.
A `tea.KeyMsg` is represented by its `String()` rendering, which is all that
`key.Matches` reads. -/
inductive Msg (μ : Type) where
  | KeyMsg (k : String) : Msg μ
  | BodyResizeMsg (Width Height : Int) : Msg μ
  | other (x : μ) : Msg μ

/-- Values of Go's `error` that `AddTab` can return: the package-level
sentinel `ErrDuplicateTab`, or any other error value (produced by a maker). -/
inductive Err (ε : Type) where
  | ErrDuplicateTab : Err ε
  | other (e : ε) : Err ε

/-- A key binding of `bubbles/key`: the keys it is bound to and whether it has
been disabled. -/
structure Binding where
  keys : List String
  disabled : Bool

/-- The method `Binding.Enabled` of `bubbles/key`: the binding is not disabled
and has keys (a nil slice of keys is the empty list here). -/
def Binding.Enabled (b : Binding) : Bool :=
  !b.disabled && !b.keys.isEmpty

/-- The function `key.Matches(k, b)` of `bubbles/key` for a single binding. -/
def Matches (k : String) (b : Binding) : Bool :=
  b.keys.any (fun v => k == v && b.Enabled)

/-- The two bindings of `keys.Navigation` that `TabSet.Update` consults. -/
structure Navigation where
  TabNext : Binding
  TabLast : Binding

/-- Methods of the `Model` interface used by the tab set, over model states
`σ`, threading the world `ω`. -/
structure ModelOps (σ μ κ ω : Type) where
  Init : σ → ω → Cmd κ × ω
  Update : σ → Msg μ → ω → (σ × Cmd κ) × ω

/-- The `Maker` interface: `Make(parent, width, height)` returns a model or an
error, threading the world `ω`. -/
structure Maker (σ ρ ε ω : Type) where
  Make : ρ → Int → Int → ω → Except (Err ε) σ × ω

/-- A tab: an embedded model and a title. -/
structure Tab (σ : Type) where
  Model : σ
  title : String

/-- A related set of tabs: the tabs, the width and height of the content area,
the index of the active tab, and the optional `tabSetInfo`. -/
structure TabSet (σ ι : Type) where
  Tabs : List (Tab σ)
  width : Int
  height : Int
  active : Int
  info : Option ι

variable {σ ι μ κ ω ρ ε : Type}

/-- Constructor `NewTabSet(width, height)`: all other fields are zero values. -/
def NewTabSet (width height : Int) : TabSet σ ι :=
  { Tabs := [], width := width, height := height, active := 0, info := none }

/-- Width of the tab content area. -/
def TabSet.contentWidth (m : TabSet σ ι) : Int :=
  m.width

/-- Height of the tab content area. -/
def TabSet.contentHeight (m : TabSet σ ι) : Int :=
  wrapInt (m.height - tabHeaderHeight)

/-- The duplicate-title scan at the head of `AddTab`: true when the loop over
`m.Tabs` finds a tab whose title equals `title`. -/
def hasTitle (title : String) : List (Tab σ) → Bool
  | [] => false
  | tab :: rest => if tab.title = title then true else hasTitle title rest

/-- Method `AddTab` (pointer receiver): returns the updated tab set, the pair
`(tea.Cmd, error)` and the world. -/
def TabSet.AddTab (ops : ModelOps σ μ κ ω) (m : TabSet σ ι) (maker : Maker σ ρ ε ω)
    (parent : ρ) (title : String) (w : ω) :
    (TabSet σ ι × Cmd κ × Option (Err ε)) × ω :=
  if hasTitle title m.Tabs then
    ((m, Cmd.nil, some Err.ErrDuplicateTab), w)
  else
    match maker.Make parent m.contentWidth m.contentHeight w with
    | (Except.error err, w1) => ((m, Cmd.nil, some err), w1)
    | (Except.ok model, w1) =>
      let m1 := { m with Tabs := m.Tabs ++ [{ Model := model, title := title }] }
      let (cmd, w2) := ops.Init model w1
      ((m1, cmd, none), w2)

/-- Method `SetActiveTab` (pointer receiver). -/
def TabSet.SetActiveTab (m : TabSet σ ι) (tabIndex : Int) : TabSet σ ι :=
  if tabIndex < 0 ∨ tabIndex > (m.Tabs.length : Int) - 1 then
    { m with active := (m.Tabs.length : Int) - 1 }
  else
    { m with active := tabIndex }

/-- The loop of `SetActiveTabWithTitle` over the tabs not yet visited, `i`
being the index of the first of them. -/
def setActiveTabWithTitleLoop (title : String) (m : TabSet σ ι) :
    List (Tab σ) → Nat → TabSet σ ι
  | [], _ => m
  | tab :: rest, i =>
    if tab.title = title then { m with active := (i : Int) }
    else setActiveTabWithTitleLoop title m rest (i + 1)

/-- Method `SetActiveTabWithTitle` (pointer receiver). -/
def TabSet.SetActiveTabWithTitle (m : TabSet σ ι) (title : String) : TabSet σ ι :=
  setActiveTabWithTitleLoop title m m.Tabs 0

/-- Method `updateTab`: updates the model of the tab at `tabIndex` in place and
returns its command; `none` when the index is out of range (a Go panic). -/
def TabSet.updateTab (ops : ModelOps σ μ κ ω) (m : TabSet σ ι) (tabIndex : Int)
    (msg : Msg μ) (w : ω) : Option ((TabSet σ ι × Cmd κ) × ω) :=
  if 0 ≤ tabIndex then
    match m.Tabs[tabIndex.toNat]? with
    | none => none
    | some tab =>
      match ops.Update tab.Model msg w with
      | ((updated, cmd), w1) =>
        some (({ m with Tabs := m.Tabs.set tabIndex.toNat { tab with Model := updated } },
          cmd), w1)
  else none

/-- The loop of `updateTabs` over the remaining indices, carrying the tab set,
the slice `cmds` and the world. -/
def updateTabsLoop (ops : ModelOps σ μ κ ω) (msg : Msg μ) :
    List Nat → TabSet σ ι → List (Cmd κ) → ω → Option (TabSet σ ι × List (Cmd κ) × ω)
  | [], m, cmds, w => some (m, cmds, w)
  | i :: is, m, cmds, w =>
    match m.updateTab ops (i : Int) msg w with
    | none => none
    | some ((m1, cmd), w1) => updateTabsLoop ops msg is m1 (cmds.set i cmd) w1

/-- Method `updateTabs`: updates every tab's model in place, index by index,
and batches the commands. -/
def TabSet.updateTabs (ops : ModelOps σ μ κ ω) (m : TabSet σ ι) (msg : Msg μ) (w : ω) :
    Option ((TabSet σ ι × Cmd κ) × ω) :=
  match updateTabsLoop ops msg (List.range m.Tabs.length) m
      (List.replicate m.Tabs.length Cmd.nil) w with
  | none => none
  | some (m1, cmds, w1) => some ((m1, Cmd.batch cmds), w1)

/-- The tail of `Update` after the type switch falls through: update each tab's
model and batch the single resulting command. -/
def updateRest (ops : ModelOps σ μ κ ω) (m : TabSet σ ι) (msg : Msg μ) (w : ω) :
    Option ((TabSet σ ι × Cmd κ) × ω) :=
  match m.updateTabs ops msg w with
  | none => none
  | some ((m1, cmd), w1) => some ((m1, Cmd.batch [cmd]), w1)

/-- Method `Update` (value receiver): returns the new tab set, the command and
the world, or `none` when the source panics. -/
def TabSet.Update (ops : ModelOps σ μ κ ω) (nav : Navigation) (m : TabSet σ ι)
    (msg : Msg μ) (w : ω) : Option ((TabSet σ ι × Cmd κ) × ω) :=
  match msg with
  | Msg.KeyMsg k =>
    if Matches k nav.TabNext then
      if m.active = (m.Tabs.length : Int) - 1 then
        some (({ m with active := 0 }, Cmd.nil), w)
      else
        some (({ m with active := wrapInt (m.active + 1) }, Cmd.nil), w)
    else if Matches k nav.TabLast then
      some (({ m with active := max (wrapInt (m.active - 1)) 0 }, Cmd.nil), w)
    else if m.Tabs.length > 0 then
      m.updateTab ops m.active msg w
    else
      updateRest ops m msg w
  | Msg.BodyResizeMsg Width Height =>
    let m1 := { m with width := Width, height := Height }
    match m1.updateTabs ops (Msg.BodyResizeMsg m1.contentWidth m1.contentHeight) w with
    | none => none
    | some ((m2, _), w1) => some ((m2, Cmd.nil), w1)
  | Msg.other _ => updateRest ops m msg w

/-- Specification of a broadcast: the message is handed to the child of every
tab exactly once, first tab first, each call seeing the world left by the one
before it; the result lists the updated tabs and the commands in tab order. -/
def deliverInOrder (ops : ModelOps σ μ κ ω) (msg : Msg μ) :
    List (Tab σ) → ω → (List (Tab σ) × List (Cmd κ)) × ω
  | [], w => (([], []), w)
  | tab :: rest, w =>
    match ops.Update tab.Model msg w with
    | ((updated, cmd), w1) =>
      match deliverInOrder ops msg rest w1 with
      | ((rest1, cmds), w2) => (({ tab with Model := updated } :: rest1, cmd :: cmds), w2)

/-- Tab sets reachable from `NewTabSet` by the exported operations: `AddTab`
with any maker, parent and title, `SetActiveTab`, `SetActiveTabWithTitle`, and
any `Update` that returns. -/
inductive Reachable (ops : ModelOps σ μ κ ω) (nav : Navigation) : TabSet σ ι → Prop where
  | newTabSet (width height : Int) : Reachable ops nav (NewTabSet width height)
  | addTab {ρ ε : Type} {m : TabSet σ ι} (maker : Maker σ ρ ε ω) (parent : ρ)
      (title : String) (w : ω) :
      Reachable ops nav m → Reachable ops nav (m.AddTab ops maker parent title w).1.1
  | setActiveTab {m : TabSet σ ι} (tabIndex : Int) :
      Reachable ops nav m → Reachable ops nav (m.SetActiveTab tabIndex)
  | setActiveTabWithTitle {m : TabSet σ ι} (title : String) :
      Reachable ops nav m → Reachable ops nav (m.SetActiveTabWithTitle title)
  | update {m m1 : TabSet σ ι} {cmd : Cmd κ} {w w1 : ω} (msg : Msg μ) :
      Reachable ops nav m → m.Update ops nav msg w = some ((m1, cmd), w1) →
      Reachable ops nav m1

/-- The titles of a list of tabs, in tab order. -/
def titles (tabs : List (Tab σ)) : List String :=
  tabs.map (fun tab => tab.title)

/-- The tab set and the world after `Update` has been applied `n` times in a
row with the same message, each time to the tab set returned by the call
before; `none` if one of the calls panics. -/
def updateTimes (ops : ModelOps σ μ κ ω) (nav : Navigation) (msg : Msg μ) :
    Nat → TabSet σ ι → ω → Option (TabSet σ ι × ω)
  | 0, m, w => some (m, w)
  | n + 1, m, w =>
    match m.Update ops nav msg w with
    | none => none
    | some ((m1, _), w1) => updateTimes ops nav msg n m1 w1

/-! ## Example instances

A child model that keeps the messages it has been sent, a maker that builds
such children, and a world that logs every call made through the two
interfaces.  They are used to evaluate the operations on concrete inputs. -/

/-- A call made through the `Maker` or `Model` interface. -/
inductive Call where
  | make (parent : String) (width height : Int) : Call
  | init (name : String) : Call
  | update (name : String) : Call
  deriving DecidableEq, Repr

/-- A child model: its name and the messages it has received, oldest first. -/
structure Inbox where
  name : String
  received : List (Msg Unit)

/-- Child methods of `Inbox`: `Update` stores the message; both methods log
the call and return a command carrying the child's name. -/
def inboxOps : ModelOps Inbox Unit String (List Call) where
  Init := fun s w => (Cmd.run s.name, w ++ [Call.init s.name])
  Update := fun s msg w =>
    (({ s with received := s.received ++ [msg] }, Cmd.run s.name), w ++ [Call.update s.name])

/-- A maker of `Inbox` children named after their parent; it logs every call
and fails for the empty parent. -/
def inboxMaker : Maker Inbox String String (List Call) where
  Make := fun parent width height w =>
    if parent = "" then (Except.error (Err.other "no parent"), w ++ [Call.make parent width height])
    else (Except.ok { name := parent, received := [] }, w ++ [Call.make parent width height])

/-- A key map binding tab to "next tab" and shift+tab to "previous tab". -/
def tabKeys : Navigation where
  TabNext := { keys := ["tab"], disabled := false }
  TabLast := { keys := ["shift+tab"], disabled := false }

/-- A tab set holding the single tab "plan". -/
def planSet : TabSet Inbox Unit :=
  ((NewTabSet 80 24).AddTab inboxOps inboxMaker "moduleX" "plan" []).1.1

/-- A tab set holding the tabs "plan", "apply" and "state", in that order. -/
def threeTabs : TabSet Inbox Unit :=
  { Tabs := [{ Model := { name := "p", received := [] }, title := "plan" },
             { Model := { name := "a", received := [] }, title := "apply" },
             { Model := { name := "s", received := [] }, title := "state" }],
    width := 80, height := 24, active := 1, info := none }

/-- The tab set after four calls of `AddTab` on `NewTabSet(80, 24)`, with the
titles "plan", "apply", "plan" again and "state", in that order. -/
def retriedSet : TabSet Inbox Unit :=
  ((((planSet.AddTab inboxOps inboxMaker "moduleX" "apply" []).1.1.AddTab
    inboxOps inboxMaker "moduleX" "plan" []).1.1).AddTab
    inboxOps inboxMaker "moduleX" "state" []).1.1

/-- The tab set `retriedSet` after an `Update` with a message of another type,
which every child has received. -/
def notifiedSet : TabSet Inbox Unit :=
  { Tabs := [{ Model := { name := "moduleX", received := [Msg.other ()] }, title := "plan" },
             { Model := { name := "moduleX", received := [Msg.other ()] }, title := "apply" },
             { Model := { name := "moduleX", received := [Msg.other ()] }, title := "state" }],
    width := 80, height := 24, active := 0, info := none }

/-- The tab set left by pressing the tab-next key on a new, empty tab set and
then adding the tab "plan". -/
def strayActive : TabSet Inbox Unit :=
  { Tabs := [{ Model := { name := "moduleX", received := [] }, title := "plan" }],
    width := 80, height := 24, active := 1, info := none }

/-! ## Minimum dimensions (`internal/tui/dimensions.go`) -/

/-- Minimum height of the TUI. -/
def MinHeight : Int := 24

/-- Height of the prompt including borders. -/
def PromptHeight : Int := 3

/-- Height of the footer at the bottom of the TUI. -/
def FooterHeight : Int := 1

/-- Height of the help widget, including borders. -/
def HelpWidgetHeight : Int := 12

/-- Minimum height of content above the footer. -/
def MinContentHeight : Int := MinHeight - FooterHeight

/-- Minimum width of the content. -/
def MinContentWidth : Int := 80

/-- Minimum height of each pane. -/
def minPaneHeight : Int := 4

/-- Minimum width of each pane. -/
def minPaneWidth : Int := 20

/-- Default height of the top right pane. -/
def defaultTopRightPaneHeight : Int := 15

/-- Default width of the left pane. -/
def defaultLeftPaneWidth : Int := 40

/-- The package `init` function of `dimensions.go`: the four checks in source
order; `Except.error` carries the message of the `panic` that is raised. -/
def init : Except String Unit :=
  if (minPaneHeight * 2) + PromptHeight + HelpWidgetHeight > MinContentHeight then
    Except.error
      "mininum heights of panes, prompt, footer, and help cannot exceed overall minimum height"
  else if minPaneWidth * 2 > MinContentWidth then
    Except.error
      "minimum width of panes must be no more than half of the minimum content width"
  else if minPaneHeight > defaultTopRightPaneHeight then
    Except.error
      "default top right pane height must not be lower than the overall minimum height"
  else if minPaneWidth > defaultLeftPaneWidth then
    Except.error
      "default left pane width must not be lower than the overall minimum width"
  else
    Except.ok ()

/-! ## Parent columns and cells (`internal/tui/columns.go`) -/

/-- The truncation functions a column can carry. -/
inductive TruncationFunc where
  | TruncateLeft : TruncationFunc
  deriving DecidableEq, Repr

/-- The struct `table.Column`, with the fields the column variables set; a
field left out of a composite literal holds its zero value. -/
structure Column where
  Key : String
  Title : String
  Width : Int
  FlexFactor : Int
  TruncationFunc : Option TruncationFunc
  deriving DecidableEq, Repr

/-- Cells of a table row: the struct `table.Cell` with its field `Str`. -/
structure Cell where
  Str : String
  deriving DecidableEq, Repr

/-- The kinds of table model that `parentColumns` and `parentCells` switch on;
every other value of `modelKind` is an `other`. -/
inductive modelKind where
  | ModuleListKind : modelKind
  | WorkspaceListKind : modelKind
  | RunListKind : modelKind
  | TaskListKind : modelKind
  | other (n : Nat) : modelKind
  deriving DecidableEq, Repr

/-- Values of `resource.Kind`: the kinds named in `columns.go`; every other
kind (run, task, ...) is an `other`. -/
inductive Kind where
  | Global : Kind
  | Module : Kind
  | Workspace : Kind
  | other (n : Nat) : Kind
  deriving DecidableEq, Repr

/-- An ancestor returned by `Module()`, `Workspace()` or `Run()`: the results
of its `String()` and of its `ID().String()`. -/
structure Ancestor where
  str : String
  idStr : String
  deriving DecidableEq, Repr

/-- A `resource.Resource` as read by `parentCells`: the result of
`ID().String()` and the ancestors, `none` standing for a nil pointer. -/
structure Resource where
  idStr : String
  Module : Option Ancestor
  Workspace : Option Ancestor
  Run : Option Ancestor
  deriving DecidableEq, Repr

/-- The column for the module path. -/
def moduleColumn : Column :=
  { Key := "", Title := "MODULE", Width := 0, FlexFactor := 3,
    TruncationFunc := some TruncationFunc.TruncateLeft }

/-- The column for the workspace name. -/
def workspaceColumn : Column :=
  { Key := "", Title := "WORKSPACE", Width := 0, FlexFactor := 2, TruncationFunc := none }

/-- The column for the run ID; `IDEncodedMaxLen` is the constant
`resource.IDEncodedMaxLen`. -/
def runColumn (IDEncodedMaxLen : Int) : Column :=
  { Key := "", Title := "RUN", Width := IDEncodedMaxLen, FlexFactor := 1, TruncationFunc := none }

/-- The column for the task ID; `IDEncodedMaxLen` is the constant
`resource.IDEncodedMaxLen`. -/
def taskColumn (IDEncodedMaxLen : Int) : Column :=
  { Key := "", Title := "TASK", Width := IDEncodedMaxLen, FlexFactor := 1, TruncationFunc := none }

/-- Function `parentColumns`: the columns are appended in source order, a
`fallthrough` continuing with the statements of the next case. -/
def parentColumns (IDEncodedMaxLen : Int) (table : modelKind) (parentKind : Kind) :
    List Column :=
  match table with
  | modelKind.ModuleListKind => [] ++ [moduleColumn]
  | modelKind.WorkspaceListKind =>
    (match parentKind with
      | Kind.Global => [] ++ [moduleColumn]
      | _ => []) ++ [workspaceColumn]
  | modelKind.RunListKind =>
    (match parentKind with
      | Kind.Global => ([] ++ [moduleColumn]) ++ [workspaceColumn]
      | Kind.Module => [] ++ [workspaceColumn]
      | _ => []) ++ [runColumn IDEncodedMaxLen]
  | modelKind.TaskListKind =>
    (match parentKind with
      | Kind.Global =>
        (([] ++ [moduleColumn]) ++ [workspaceColumn]) ++ [runColumn IDEncodedMaxLen]
      | Kind.Module => ([] ++ [workspaceColumn]) ++ [runColumn IDEncodedMaxLen]
      | Kind.Workspace => [] ++ [runColumn IDEncodedMaxLen]
      | _ => []) ++ [taskColumn IDEncodedMaxLen]
  | modelKind.other _ => []

/-- The cell `table.Cell{Str: res.Module().String()}`; `none` when `Module()`
is nil and the call dereferences it. -/
def moduleCell (res : Resource) : Option Cell :=
  res.Module.map (fun a => { Str := a.str })

/-- The cell `table.Cell{Str: res.Workspace().String()}`; `none` when
`Workspace()` is nil. -/
def workspaceCell (res : Resource) : Option Cell :=
  res.Workspace.map (fun a => { Str := a.str })

/-- The cell `table.Cell{Str: res.Run().ID().String()}`; `none` when `Run()`
is nil. -/
def runCell (res : Resource) : Option Cell :=
  res.Run.map (fun a => { Str := a.idStr })

/-- The workspace cell of the tasks table: guarded by `res.Workspace() != nil`,
a blank cell otherwise. -/
def taskWorkspaceCell (res : Resource) : Cell :=
  match res.Workspace with
  | some a => { Str := a.str }
  | none => { Str := "" }

/-- The run cell of the tasks table: guarded by `res.Run() != nil`, a blank
cell otherwise. -/
def taskRunCell (res : Resource) : Cell :=
  match res.Run with
  | some a => { Str := a.idStr }
  | none => { Str := "" }

/-- Function `parentCells`: the cells are appended in source order, a
`fallthrough` continuing with the statements of the next case; `none` when a
nil ancestor is dereferenced (a Go panic). -/
def parentCells (tbl : modelKind) (parentKind : Kind) (res : Resource) : Option (List Cell) :=
  match tbl with
  | modelKind.ModuleListKind => do
    let c ← moduleCell res
    pure ([] ++ [c])
  | modelKind.WorkspaceListKind => do
    let cells ← (match parentKind with
      | Kind.Global => do
        let c ← moduleCell res
        pure ([] ++ [c])
      | _ => pure [])
    let c ← workspaceCell res
    pure (cells ++ [c])
  | modelKind.RunListKind => do
    let cells ← (match parentKind with
      | Kind.Global => do
        let c1 ← moduleCell res
        let c2 ← workspaceCell res
        pure (([] ++ [c1]) ++ [c2])
      | Kind.Module => do
        let c2 ← workspaceCell res
        pure ([] ++ [c2])
      | _ => pure [])
    let c ← runCell res
    pure (cells ++ [c])
  | modelKind.TaskListKind => do
    let cells ← (match parentKind with
      | Kind.Global => do
        let c1 ← moduleCell res
        pure ((([] ++ [c1]) ++ [taskWorkspaceCell res]) ++ [taskRunCell res])
      | Kind.Module => pure (([] ++ [taskWorkspaceCell res]) ++ [taskRunCell res])
      | Kind.Workspace => pure ([] ++ [taskRunCell res])
      | _ => pure [])
    pure (cells ++ [{ Str := res.idStr }])
  | modelKind.other _ => pure []

/-- The value a column shows for a resource: the module path under MODULE,
the workspace name under WORKSPACE, the run ID under RUN and the resource's own
ID under TASK, an ancestor the resource does not have giving a blank cell. -/
def cellFor (res : Resource) (col : Column) : Cell :=
  if col.Title = "MODULE" then { Str := (res.Module.map (fun a => a.str)).getD "" }
  else if col.Title = "WORKSPACE" then { Str := (res.Workspace.map (fun a => a.str)).getD "" }
  else if col.Title = "RUN" then { Str := (res.Run.map (fun a => a.idStr)).getD "" }
  else { Str := res.idStr }

/-- The ancestors a table needs are there: the module where a MODULE column is
shown, and, on every table but the tasks table, the workspace where a
WORKSPACE column is shown and the run where a RUN column is shown. -/
def ancestorsResolve (IDEncodedMaxLen : Int) (tbl : modelKind) (parentKind : Kind)
    (res : Resource) : Prop :=
  (moduleColumn ∈ parentColumns IDEncodedMaxLen tbl parentKind → res.Module.isSome = true) ∧
  (tbl ≠ modelKind.TaskListKind →
    workspaceColumn ∈ parentColumns IDEncodedMaxLen tbl parentKind →
    res.Workspace.isSome = true) ∧
  (tbl ≠ modelKind.TaskListKind →
    runColumn IDEncodedMaxLen ∈ parentColumns IDEncodedMaxLen tbl parentKind →
    res.Run.isSome = true)

/-- The hierarchy order of the parent columns: module, workspace, run, task. -/
def hierarchy (IDEncodedMaxLen : Int) : List Column :=
  [moduleColumn, workspaceColumn, runColumn IDEncodedMaxLen, taskColumn IDEncodedMaxLen]

/-- The column of a table's own resource, if it is one of the four tables. -/
def ownColumn (IDEncodedMaxLen : Int) : modelKind → Option Column
  | modelKind.ModuleListKind => some moduleColumn
  | modelKind.WorkspaceListKind => some workspaceColumn
  | modelKind.RunListKind => some (runColumn IDEncodedMaxLen)
  | modelKind.TaskListKind => some (taskColumn IDEncodedMaxLen)
  | modelKind.other _ => none

/-! ## The short help (`shortHelpView`)

The function is called by the top-level model and exercised by `Test_render`
in `help_test.go`; its body is in `help.go`, which is not among the files
embedded here.  The definitions below lay the help texts out as the
expectations of `Test_render` show them. -/

/-- The struct `key.Help` of `bubbles/key`: the key and the description a
binding shows in a help view. -/
structure Help where
  Key : String
  Desc : String

/-- Modelled from the spec: the text of one binding in the short help, missing
with `shortHelpView`: the key, a space, the description. -/
def helpEntry (b : Help) : String :=
  b.Key ++ " " ++ b.Desc

/-- Modelled from the spec: the columns of the short help, missing with
`shortHelpView`: the bindings in input order, three to a column, the last
column holding what is left. -/
def helpColumns : List Help → List (List Help)
  | [] => []
  | a :: b :: c :: rest => [a, b, c] :: helpColumns rest
  | rest => [rest]

/-- Modelled from the spec: the common width of a column of the short help,
missing with `shortHelpView`: the length of its longest entry. -/
def columnWidth (col : List Help) : Nat :=
  (col.map (fun b => (helpEntry b).length)).foldr max 0

/-- Modelled from the spec: padding with blanks on the right up to a width,
missing with `shortHelpView`. -/
def padRight (s : String) (n : Nat) : String :=
  s ++ String.mk (List.replicate (n - s.length) ' ')

/-- Modelled from the spec: the cell in row `r` of a column of the short help,
missing with `shortHelpView`: the entry, or nothing where the column has no
entry in that row, padded to the column's width and followed by a gap of three
blanks. -/
def helpCell (col : List Help) (r : Nat) : String :=
  padRight (match col[r]? with
    | some b => helpEntry b
    | none => "") (columnWidth col) ++ "   "

/-- Modelled from the spec: row `r` of the short help, missing with
`shortHelpView`: the cells of that row, column after column. -/
def helpLine (cols : List (List Help)) (r : Nat) : String :=
  String.join (cols.map (fun col => helpCell col r))

/-- Modelled from the spec: the width the columns of the short help take,
missing with `shortHelpView`. -/
def helpWidth (cols : List (List Help)) : Nat :=
  (cols.map (fun col => columnWidth col + 3)).sum

/-- Modelled from the spec: the function `shortHelpView(bindings, maxWidth)` of
`help.go`, on the help texts of the bindings.  When the columns fit in
`maxWidth` the rows, three at most, are joined by newlines; what is shown when
they do not fit is not described and is the parameter `overflow`. -/
def shortHelpView (overflow : List Help → Int → String) (bindings : List Help)
    (maxWidth : Int) : String :=
  if (helpWidth (helpColumns bindings) : Int) ≤ maxWidth then
    String.intercalate "\n"
      ((List.range (min 3 bindings.length)).map (helpLine (helpColumns bindings)))
  else overflow bindings maxWidth

/-- The seven bindings a to g of the third case of `Test_render`. -/
def sevenBindings : List Help :=
  [{ Key := "a", Desc := "aaa" }, { Key := "b", Desc := "bbb" }, { Key := "c", Desc := "ccc" },
   { Key := "d", Desc := "ddd" }, { Key := "e", Desc := "eee" }, { Key := "f", Desc := "fff" },
   { Key := "g", Desc := "ggg" }]

/-! ## The top-level model (`internal/tui/top/model.go`)

The navigator, the task service, the spinner and the message dump are declared
in other files of the package; what `Update` asks of them is collected in the
record `Deps`, their state living in the world `ω`. -/

namespace top

/-- Rows taken by the header: `headerHeight = 3`. -/
def headerHeight : Int := 3

/-- Rows taken by the title line: `breadcrumbsHeight = 1`. -/
def breadcrumbsHeight : Int := 1

/-- Rows taken by the horizontal rule: `horizontalRuleHeight = 1`. -/
def horizontalRuleHeight : Int := 1

/-- Rows taken by the message footer: `messageFooterHeight = 1`. -/
def messageFooterHeight : Int := 1

/-- Values of `tea.Msg` by dynamic type, as switched on in `model.Update`; an
`ErrorMsg` carries its `Error` (nil as `none`) and its formatted message. -/
inductive Msg (μ : Type) where
  | TaskEvent (e : μ) : Msg μ
  | TickMsg (t : μ) : Msg μ
  | ModuleEvent (e : μ) : Msg μ
  | WindowSizeMsg (Width Height : Int) : Msg μ
  | KeyMsg (k : String) : Msg μ
  | NavigationMsg (page : μ) : Msg μ
  | ErrorMsg (Error : Option String) (text : String) : Msg μ
  | BodyResizeMsg (Width Height : Int) : Msg μ
  | other (x : μ) : Msg μ

/-- Values of `tea.Cmd`: nil, `tea.Quit`, a function literal returning a given
message, a command made elsewhere, or the result of `tea.Batch`. -/
inductive Cmd (μ κ : Type) where
  | nil : Cmd μ κ
  | Quit : Cmd μ κ
  | send (msg : Msg μ) : Cmd μ κ
  | run (k : κ) : Cmd μ κ
  | batch (cs : List (Cmd μ κ)) : Cmd μ κ

/-- The bindings of `keys.Global` that `model.Update` consults. -/
structure GlobalKeys where
  Quit : Binding
  Escape : Binding
  Help : Binding
  Logs : Binding
  Modules : Binding
  Workspaces : Binding
  Runs : Binding
  Tasks : Binding

/-- The navigator as far as `model.Update` reads and writes it: the dimensions
handed to new models, and the rest of its state. -/
structure navigator (ν : Type) where
  width : Int
  height : Int
  rest : ν

/-- The top-level model; `navigator` is the state behind the embedded pointer
and `dump` tells whether the dump file is non-nil. -/
structure model (ν : Type) where
  navigator : navigator ν
  width : Int
  height : Int
  showHelp : Bool
  err : String
  dump : Bool

/-- What `model.Update` calls outside `model.go`. -/
structure Deps (ν μ κ ω : Type) where
  Global : GlobalKeys
  LogsKind : modelKind
  Fdump : Msg μ → ω → ω
  Counter : ω → Int
  Tick : Cmd μ κ
  spinnerUpdate : μ → ω → Cmd μ κ × ω
  goBack : navigator ν → ω → navigator ν × ω
  NavigateTo : modelKind → Cmd μ κ
  updateCurrent : navigator ν → Msg μ → ω → (navigator ν × Cmd μ κ) × ω
  setCurrent : navigator ν → μ → ω → (navigator ν × Bool × Option String) × ω
  currentInit : navigator ν → ω → Cmd μ κ × ω
  NewErrorCmd : String → String → Cmd μ κ
  logError : String → String → ω → ω
  updateAll : navigator ν → Msg μ → ω → (navigator ν × List (Cmd μ κ)) × ω

variable {ν μ κ ω : Type}

/-- Method `viewHeight`: the height beneath the header and title line and
above the rule and message footer. -/
def model.viewHeight (m : model ν) : Int :=
  wrapInt (wrapInt (wrapInt (wrapInt (m.height - headerHeight) - breadcrumbsHeight)
    - horizontalRuleHeight) - messageFooterHeight)

/-- Method `viewWidth`: the width available within the main view. -/
def model.viewWidth (m : model ν) : Int :=
  m.width

/-- The third type switch of `model.Update`, entered with the commands
gathered so far. -/
def dispatch (d : Deps ν μ κ ω) (m : model ν) (msg : Msg μ) (cmds : List (Cmd μ κ)) (w : ω) :
    (model ν × Cmd μ κ) × ω :=
  match msg with
  | Msg.WindowSizeMsg Width Height =>
    let m1 := { m with width := Width, height := Height }
    let m2 := { m1 with
      navigator := { m1.navigator with width := m1.viewWidth, height := m1.viewHeight } }
    ((m2, Cmd.send (Msg.BodyResizeMsg m2.viewWidth m2.viewHeight)), w)
  | Msg.KeyMsg k =>
    let m1 := { m with err := "" }
    if Matches k d.Global.Quit then ((m1, Cmd.Quit), w)
    else if Matches k d.Global.Escape then
      if m1.showHelp then (({ m1 with showHelp := false }, Cmd.nil), w)
      else
        match d.goBack m1.navigator w with
        | (n, w1) => (({ m1 with navigator := n }, Cmd.nil), w1)
    else if Matches k d.Global.Help then (({ m1 with showHelp := !m1.showHelp }, Cmd.nil), w)
    else if Matches k d.Global.Logs then ((m1, d.NavigateTo d.LogsKind), w)
    else if Matches k d.Global.Modules then ((m1, d.NavigateTo modelKind.ModuleListKind), w)
    else if Matches k d.Global.Workspaces then
      ((m1, d.NavigateTo modelKind.WorkspaceListKind), w)
    else if Matches k d.Global.Runs then ((m1, d.NavigateTo modelKind.RunListKind), w)
    else if Matches k d.Global.Tasks then ((m1, d.NavigateTo modelKind.TaskListKind), w)
    else
      match d.updateCurrent m1.navigator msg w with
      | ((n, cmd), w1) => (({ m1 with navigator := n }, cmd), w1)
  | Msg.NavigationMsg page =>
    match d.setCurrent m.navigator page w with
    | ((n, _, some err), w1) =>
      (({ m with navigator := n }, d.NewErrorCmd err "setting current page"), w1)
    | ((n, true, none), w1) =>
      match d.currentInit n w1 with
      | (cmd, w2) => (({ m with navigator := n }, cmd), w2)
    | ((n, false, none), w1) => (({ m with navigator := n }, Cmd.nil), w1)
  | Msg.ErrorMsg (some err) text =>
    (({ m with err := "Error: " ++ text ++ ": " ++ err }, Cmd.nil), d.logError text err w)
  | Msg.ErrorMsg none _ => ((m, Cmd.nil), w)
  | _ =>
    match d.updateAll m.navigator msg w with
    | ((n, cs), w1) => (({ m with navigator := n }, Cmd.batch (cmds ++ cs)), w1)

/-- Method `Update` of the top-level model: the message dump, the switch that
keeps the spinner going, and the switch on the message proper (the switch on
module events in between changes nothing). -/
def model.Update (d : Deps ν μ κ ω) (m : model ν) (msg : Msg μ) (w : ω) :
    (model ν × Cmd μ κ) × ω :=
  let w0 := if m.dump then d.Fdump msg w else w
  match msg with
  | Msg.TaskEvent _ => dispatch d m msg (if d.Counter w0 > 0 then [d.Tick] else []) w0
  | Msg.TickMsg t =>
    match d.spinnerUpdate t w0 with
    | (cmd, w1) => if d.Counter w1 > 0 then ((m, cmd), w1) else dispatch d m msg [] w1
  | _ => dispatch d m msg [] w0

end top

/-- A key map for the top-level model with the keys of the application. -/
def globalKeys : top.GlobalKeys where
  Quit := { keys := ["ctrl+c"], disabled := false }
  Escape := { keys := ["esc"], disabled := false }
  Help := { keys := ["?"], disabled := false }
  Logs := { keys := ["l"], disabled := false }
  Modules := { keys := ["m"], disabled := false }
  Workspaces := { keys := ["W"], disabled := false }
  Runs := { keys := ["R"], disabled := false }
  Tasks := { keys := ["T"], disabled := false }

/-- Collaborators of the top-level model that log the calls made to them in a
world of strings and leave the navigator as it is. -/
def loggingDeps : top.Deps Unit Unit String (List String) where
  Global := globalKeys
  LogsKind := modelKind.other 0
  Fdump := fun _ w => w ++ ["Fdump"]
  Counter := fun _ => 0
  Tick := top.Cmd.run "Tick"
  spinnerUpdate := fun _ w => (top.Cmd.run "Tick", w ++ ["spinner.Update"])
  goBack := fun n w => (n, w ++ ["goBack"])
  NavigateTo := fun _ => top.Cmd.run "NavigateTo"
  updateCurrent := fun n _ w => ((n, top.Cmd.nil), w ++ ["updateCurrent"])
  setCurrent := fun n _ w => ((n, false, none), w ++ ["setCurrent"])
  currentInit := fun _ w => (top.Cmd.nil, w ++ ["Init"])
  NewErrorCmd := fun _ _ => top.Cmd.run "NewErrorCmd"
  logError := fun _ _ w => w ++ ["slog.Error"]
  updateAll := fun n _ w => ((n, []), w ++ ["updateAll"])

/-- A top-level model on an 80 by 24 terminal, without a dump file. -/
def smallTerminal : top.model Unit :=
  { navigator := { width := 80, height := 18, rest := () },
    width := 80, height := 24, showHelp := false, err := "", dump := false }

end tui

/-! ## The main model (`internal/main_model.go`)

The child models `modules` and `task` are values of the interface `model`; a
nil interface is `none`, and calling a method on it panics (`none` as the
result of `Update`).  The key map `keys`, the constructor `newTaskModel` and the
border size read by `viewWidth` are declared elsewhere and are parameters. -/

namespace internal

/-- The type `state`, a `uint`. -/
abbrev state : Type := Nat

/-- The state showing the modules model: `iota` 0. -/
def modulesState : state := 0

/-- The state showing the task model: `iota` 1. -/
def taskState : state := 1

/-- The state showing the help: `iota` 2. -/
def helpState : state := 2

/-- Values of `tea.Msg` by dynamic type, as switched on in `mainModel.Update`;
`viewSizeMsg` is the message the resize command returns and is not a case of
the switch. -/
inductive Msg (τ μ : Type) where
  | WindowSizeMsg (Width Height : Int) : Msg τ μ
  | KeyMsg (k : String) : Msg τ μ
  | newTaskMsg (task mod : τ) : Msg τ μ
  | taskFailedMsg : Msg τ μ
  | viewSizeMsg (width height : Int) : Msg τ μ
  | other (x : μ) : Msg τ μ

/-- Values of `tea.Cmd`: nil, `tea.Quit`, a function literal returning a given
message, a command made by a child model, or the result of `tea.Batch`. -/
inductive Cmd (τ μ κ : Type) where
  | nil : Cmd τ μ κ
  | Quit : Cmd τ μ κ
  | send (msg : Msg τ μ) : Cmd τ μ κ
  | run (k : κ) : Cmd τ μ κ
  | batch (cs : List (Cmd τ μ κ)) : Cmd τ μ κ

/-- The bindings of the key map `keys` that `mainModel.Update` consults. -/
structure keyMap where
  Quit : tui.Binding
  Modules : tui.Binding
  Help : tui.Binding

/-- Methods of the interface `model` that `mainModel.Update` calls, over model
states `σ`, threading the world `ω`. -/
structure model (σ τ μ κ ω : Type) where
  Init : σ → ω → Cmd τ μ κ × ω
  Update : σ → Msg τ μ → ω → (σ × Cmd τ μ κ) × ω

/-- What `mainModel.Update` uses from outside `main_model.go`: the key map,
the constructor `newTaskModel(task, mod, width, height)` and the value of
`roundedBorders.Copy().GetVerticalBorderSize()`. -/
structure Deps (σ τ ω : Type) where
  keys : keyMap
  newTaskModel : τ → τ → Int → Int → ω → σ × ω
  verticalBorderSize : Int

/-- The main model (the `runner` pointer, which `Update` does not read, is left
out). -/
structure mainModel (σ : Type) where
  current : state
  last : state
  modules : Option σ
  task : Option σ
  width : Int
  height : Int

variable {σ τ μ κ ω : Type}

/-- Method `viewHeight`: the height available within the main view. -/
def mainModel.viewHeight (m : mainModel σ) : Int :=
  tui.wrapInt (m.height - 5)

/-- Method `viewWidth`: the width available within the main view. -/
def mainModel.viewWidth (border : Int) (m : mainModel σ) : Int :=
  tui.wrapInt (m.width - border)

/-- The second switch of `mainModel.Update`: the message goes to the model of
the current state and the command is batched; `none` when that model is nil. -/
def updateCurrent (ops : model σ τ μ κ ω) (m : mainModel σ) (msg : Msg τ μ) (w : ω) :
    Option ((mainModel σ × Cmd τ μ κ) × ω) :=
  if m.current = modulesState then
    match m.modules with
    | none => none
    | some child =>
      match ops.Update child msg w with
      | ((newModel, cmd), w1) =>
        some (({ m with modules := some newModel }, Cmd.batch ([] ++ [cmd])), w1)
  else if m.current = taskState then
    match m.task with
    | none => none
    | some child =>
      match ops.Update child msg w with
      | ((newModel, cmd), w1) =>
        some (({ m with task := some newModel }, Cmd.batch ([] ++ [cmd])), w1)
  else
    some ((m, Cmd.batch []), w)

/-- Method `Update` of the main model (value receiver). -/
def mainModel.Update (ops : model σ τ μ κ ω) (d : Deps σ τ ω) (m : mainModel σ)
    (msg : Msg τ μ) (w : ω) : Option ((mainModel σ × Cmd τ μ κ) × ω) :=
  match msg with
  | Msg.WindowSizeMsg Width Height =>
    let m1 := { m with width := Width, height := Height }
    some ((m1, Cmd.send (Msg.viewSizeMsg (m1.viewWidth d.verticalBorderSize) m1.viewHeight)), w)
  | Msg.KeyMsg k =>
    if tui.Matches k d.keys.Quit then some ((m, Cmd.Quit), w)
    else if tui.Matches k d.keys.Modules then
      some (({ m with current := modulesState }, Cmd.nil), w)
    else if tui.Matches k d.keys.Help then
      if m.current = helpState then some (({ m with current := m.last }, Cmd.nil), w)
      else some (({ m with current := helpState }, Cmd.nil), w)
    else updateCurrent ops m msg w
  | Msg.newTaskMsg task mod =>
    let m1 := { m with current := taskState }
    match d.newTaskModel task mod (m1.viewWidth d.verticalBorderSize) m1.viewHeight w with
    | (child, w1) =>
      match ops.Init child w1 with
      | (cmd, w2) => some (({ m1 with task := some child }, cmd), w2)
  | Msg.taskFailedMsg => some ((m, Cmd.Quit), w)
  | _ => updateCurrent ops m msg w

/-- A key map with ctrl+c to quit, m for the modules and ? for the help. -/
def mainKeys : keyMap where
  Quit := { keys := ["ctrl+c"], disabled := false }
  Modules := { keys := ["m"], disabled := false }
  Help := { keys := ["?"], disabled := false }

/-- Child models that count the messages they are sent. -/
def countingModel : model Nat String Unit String Unit where
  Init := fun _ w => (Cmd.nil, w)
  Update := fun n _ w => ((n + 1, Cmd.nil), w)

/-- Collaborators for `countingModel`: new task models start at 0 and the
rounded border is 2 columns wide. -/
def countingDeps : Deps Nat String Unit where
  keys := mainKeys
  newTaskModel := fun _ _ _ _ w => (0, w)
  verticalBorderSize := 2

/-- The main model as `NewMainModel` returns it (all fields but `current`,
`modules` and `runner` zero), with a modules model that has seen 7 messages. -/
def freshMain : mainModel Nat :=
  { current := modulesState, last := 0, modules := some 7, task := none, width := 0, height := 0 }

/-- The main model `freshMain` after a `newTaskMsg`: the task model is shown. -/
def onTask : mainModel Nat :=
  { current := taskState, last := 0, modules := some 7, task := some 0, width := 0, height := 0 }

end internal

namespace tui

variable {σ ι μ κ ω ρ ε : Type}

/-! ## Auxiliary lemmas -/

theorem wrapInt_of_mem {x : Int} (h1 : minInt ≤ x) (h2 : x ≤ maxInt) : wrapInt x = x := by
  unfold wrapInt
  unfold minInt at h1
  unfold maxInt at h2
  omega

theorem hasTitle_iff (title : String) (tabs : List (Tab σ)) :
    hasTitle title tabs = true ↔ title ∈ titles tabs := by
  induction tabs with
  | nil => simp [hasTitle, titles]
  | cons tab rest ih =>
    unfold titles at ih
    by_cases h : tab.title = title
    · simp [hasTitle, titles, h]
    · have h2 : ¬ title = tab.title := fun e => h e.symm
      simp [hasTitle, titles, h, h2, ih]

theorem titles_deliverInOrder (ops : ModelOps σ μ κ ω) (msg : Msg μ) (tabs : List (Tab σ))
    (w : ω) : titles (deliverInOrder ops msg tabs w).1.1 = titles tabs := by
  induction tabs generalizing w with
  | nil => simp [deliverInOrder, titles]
  | cons tab rest ih =>
    have h := ih (ops.Update tab.Model msg w).2
    simp only [deliverInOrder, titles, List.map_cons] at h ⊢
    rw [h]

theorem length_deliverInOrder (ops : ModelOps σ μ κ ω) (msg : Msg μ) (tabs : List (Tab σ))
    (w : ω) : (deliverInOrder ops msg tabs w).1.1.length = tabs.length := by
  have h := congrArg List.length (titles_deliverInOrder ops msg tabs w)
  simpa [titles] using h

theorem updateTab_at (ops : ModelOps σ μ κ ω) (m : TabSet σ ι) (pre rest : List (Tab σ))
    (tab : Tab σ) (msg : Msg μ) (w : ω) (hm : m.Tabs = pre ++ tab :: rest) :
    m.updateTab ops (pre.length : Int) msg w =
      some (({ m with Tabs := pre ++ { tab with Model := (ops.Update tab.Model msg w).1.1 } :: rest },
        (ops.Update tab.Model msg w).1.2), (ops.Update tab.Model msg w).2) := by
  have hget : m.Tabs[pre.length]? = some tab := by
    rw [hm, List.getElem?_append_right (Nat.le_refl _)]
    simp
  have hset : ∀ x : Tab σ, m.Tabs.set pre.length x = pre ++ x :: rest := by
    intro x
    rw [hm]
    simp
  unfold TabSet.updateTab
  simp only [Int.toNat_ofNat, hget, hset]
  simp

theorem updateTabsLoop_spec (ops : ModelOps σ μ κ ω) (msg : Msg μ) (rest : List (Tab σ)) :
    ∀ (pre : List (Tab σ)) (m : TabSet σ ι) (cs : List (Cmd κ)) (w : ω),
      m.Tabs = pre ++ rest → cs.length = pre.length →
      updateTabsLoop ops msg (List.range' pre.length rest.length) m
          (cs ++ List.replicate rest.length Cmd.nil) w =
        some ({ m with Tabs := pre ++ (deliverInOrder ops msg rest w).1.1 },
          cs ++ (deliverInOrder ops msg rest w).1.2, (deliverInOrder ops msg rest w).2) := by
  induction rest with
  | nil =>
    intro pre m cs w hm _
    cases m
    simp only [List.append_nil] at hm
    simp [updateTabsLoop, deliverInOrder, hm]
  | cons tab rest ih =>
    intro pre m cs w hm hcs
    have hset : (cs ++ List.replicate (tab :: rest).length (Cmd.nil : Cmd κ)).set pre.length
        (ops.Update tab.Model msg w).1.2 =
        (cs ++ [(ops.Update tab.Model msg w).1.2]) ++ List.replicate rest.length Cmd.nil := by
      rw [← hcs]
      simp [List.replicate_succ]
    have hlen : (pre ++ [{ tab with Model := (ops.Update tab.Model msg w).1.1 }]).length
        = pre.length + 1 := by simp
    have hstep := ih (pre ++ [{ tab with Model := (ops.Update tab.Model msg w).1.1 }])
      { m with Tabs := pre ++ { tab with Model := (ops.Update tab.Model msg w).1.1 } :: rest }
      (cs ++ [(ops.Update tab.Model msg w).1.2]) (ops.Update tab.Model msg w).2
      (by simp) (by simp [hcs])
    rw [hlen] at hstep
    simp only [List.length_cons, List.range'_succ, updateTabsLoop]
    rw [updateTab_at ops m pre rest tab msg w hm]
    simp only []
    simp only [List.length_cons] at hset
    rw [hset, hstep]
    simp [deliverInOrder]

theorem updateTabs_spec (ops : ModelOps σ μ κ ω) (m : TabSet σ ι) (msg : Msg μ) (w : ω) :
    m.updateTabs ops msg w =
      some (({ m with Tabs := (deliverInOrder ops msg m.Tabs w).1.1 },
        Cmd.batch (deliverInOrder ops msg m.Tabs w).1.2), (deliverInOrder ops msg m.Tabs w).2) := by
  have h := updateTabsLoop_spec ops msg m.Tabs [] m [] w (by simp) (by simp)
  simp only [List.length_nil, List.nil_append] at h
  unfold TabSet.updateTabs
  rw [List.range_eq_range', h]

theorem map_set_same {α β : Type} (f : α → β) :
    ∀ (l : List α) (i : Nat) (a x : α), l[i]? = some a → f x = f a →
      (l.set i x).map f = l.map f := by
  intro l
  induction l with
  | nil => intro i a x h _; simp at h
  | cons b l ih =>
    intro i a x h hf
    cases i with
    | zero =>
      simp only [List.getElem?_cons_zero, Option.some.injEq] at h
      subst h
      simp [hf]
    | succ i =>
      simp only [List.getElem?_cons_succ] at h
      simp [ih i a x h hf]

theorem updateTab_titles (ops : ModelOps σ μ κ ω) (m m1 : TabSet σ ι) (i : Int) (msg : Msg μ)
    (w w1 : ω) (cmd : Cmd κ) (h : m.updateTab ops i msg w = some ((m1, cmd), w1)) :
    titles m1.Tabs = titles m.Tabs := by
  unfold TabSet.updateTab at h
  split at h
  · split at h
    · exact absurd h (by simp)
    · rename_i tab hget
      simp only [Option.some.injEq, Prod.mk.injEq] at h
      obtain ⟨⟨hm, _⟩, _⟩ := h
      subst hm
      exact map_set_same (fun t : Tab σ => t.title) m.Tabs i.toNat tab
        { tab with Model := (ops.Update tab.Model msg w).1.1 } hget rfl
  · exact absurd h (by simp)

theorem setActiveTabWithTitleLoop_frame (title : String) (m : TabSet σ ι) (tabs : List (Tab σ))
    (i : Nat) :
    (setActiveTabWithTitleLoop title m tabs i).Tabs = m.Tabs ∧
    (setActiveTabWithTitleLoop title m tabs i).width = m.width ∧
    (setActiveTabWithTitleLoop title m tabs i).height = m.height ∧
    (setActiveTabWithTitleLoop title m tabs i).info = m.info := by
  induction tabs generalizing i with
  | nil => simp [setActiveTabWithTitleLoop]
  | cons tab rest ih =>
    unfold setActiveTabWithTitleLoop
    split
    · simp
    · exact ih (i + 1)

theorem Update_titles (ops : ModelOps σ μ κ ω) (nav : Navigation) (m m1 : TabSet σ ι)
    (msg : Msg μ) (w w1 : ω) (cmd : Cmd κ)
    (h : m.Update ops nav msg w = some ((m1, cmd), w1)) :
    titles m1.Tabs = titles m.Tabs := by
  cases msg with
  | KeyMsg k =>
    simp only [TabSet.Update] at h
    split at h
    · split at h <;>
        (simp only [Option.some.injEq, Prod.mk.injEq] at h; obtain ⟨⟨hm, _⟩, _⟩ := h; subst hm; rfl)
    · split at h
      · simp only [Option.some.injEq, Prod.mk.injEq] at h
        obtain ⟨⟨hm, _⟩, _⟩ := h
        subst hm
        rfl
      · split at h
        · exact updateTab_titles ops m m1 m.active _ w w1 cmd h
        · simp only [updateRest, updateTabs_spec, Option.some.injEq, Prod.mk.injEq] at h
          obtain ⟨⟨hm, _⟩, _⟩ := h
          subst hm
          exact titles_deliverInOrder ops _ m.Tabs w
  | BodyResizeMsg Width Height =>
    simp only [TabSet.Update, updateTabs_spec, Option.some.injEq, Prod.mk.injEq] at h
    obtain ⟨⟨hm, _⟩, _⟩ := h
    subst hm
    exact titles_deliverInOrder ops _ m.Tabs w
  | other x =>
    simp only [TabSet.Update, updateRest, updateTabs_spec, Option.some.injEq, Prod.mk.injEq] at h
    obtain ⟨⟨hm, _⟩, _⟩ := h
    subst hm
    exact titles_deliverInOrder ops _ m.Tabs w

theorem setActiveTabWithTitleLoop_absent (title : String) (m : TabSet σ ι)
    (tabs : List (Tab σ)) (i : Nat) (h : ∀ tab ∈ tabs, tab.title ≠ title) :
    setActiveTabWithTitleLoop title m tabs i = m := by
  induction tabs generalizing i with
  | nil => rfl
  | cons tab rest ih =>
    have h1 : tab.title ≠ title := h tab (List.mem_cons_self _ _)
    simp only [setActiveTabWithTitleLoop, h1, if_false]
    exact ih (i + 1) (fun t ht => h t (List.mem_cons_of_mem _ ht))

theorem setActiveTabWithTitleLoop_present (title : String) (m : TabSet σ ι)
    (tabs : List (Tab σ)) (i : Nat) (h : ∃ tab ∈ tabs, tab.title = title) :
    ∃ k : Nat, (titles tabs)[k]? = some title ∧
      (∀ j : Nat, j < k → (titles tabs)[j]? ≠ some title) ∧
      setActiveTabWithTitleLoop title m tabs i = { m with active := ((i + k : Nat) : Int) } := by
  induction tabs generalizing i with
  | nil =>
    obtain ⟨tab, htab, _⟩ := h
    exact absurd htab (List.not_mem_nil _)
  | cons tab rest ih =>
    by_cases h1 : tab.title = title
    · refine ⟨0, by simp [titles, h1], fun j hj => absurd hj (Nat.not_lt_zero j), ?_⟩
      simp [setActiveTabWithTitleLoop, h1]
    · have hrest : ∃ t ∈ rest, t.title = title := by
        obtain ⟨t, ht, hteq⟩ := h
        rcases List.mem_cons.mp ht with rfl | hmem
        · exact absurd hteq h1
        · exact ⟨t, hmem, hteq⟩
      obtain ⟨k, hk, hfirst, hres⟩ := ih (i + 1) hrest
      refine ⟨k + 1, by simpa [titles] using hk, ?_, ?_⟩
      · intro j hj
        cases j with
        | zero => simpa [titles] using h1
        | succ j =>
          have := hfirst j (by omega)
          simpa [titles] using this
      · simp only [setActiveTabWithTitleLoop, h1, if_false]
        rw [hres]
        have : i + 1 + k = i + (k + 1) := by omega
        rw [this]

theorem Update_tabNext_in_range (ops : ModelOps σ μ κ ω) (nav : Navigation) (m : TabSet σ ι)
    (k : String) (w : ω) (hlen : (m.Tabs.length : Int) ≤ maxInt) (h0 : 0 ≤ m.active)
    (h1 : m.active ≤ (m.Tabs.length : Int) - 1) (hnext : Matches k nav.TabNext = true) :
    m.Update ops nav (Msg.KeyMsg k) w =
      some (({ m with active := (m.active + 1) % (m.Tabs.length : Int) }, Cmd.nil), w) := by
  simp only [TabSet.Update, hnext, if_true]
  by_cases hlast : m.active = (m.Tabs.length : Int) - 1
  · have hmod : (m.active + 1) % (m.Tabs.length : Int) = 0 := by
      have : m.active + 1 = (m.Tabs.length : Int) := by omega
      rw [this, Int.emod_self]
    simp only [hlast, if_true]
    rw [← hlast, hmod]
  · have hw : wrapInt (m.active + 1) = m.active + 1 := by
      apply wrapInt_of_mem
      · unfold minInt; omega
      · omega
    have hmod : (m.active + 1) % (m.Tabs.length : Int) = m.active + 1 :=
      Int.emod_eq_of_lt (by omega) (by omega)
    simp only [hlast, if_false, hw, hmod]

theorem updateTimes_tabNext (ops : ModelOps σ μ κ ω) (nav : Navigation) (k : String) (w : ω)
    (hnext : Matches k nav.TabNext = true) (j : Nat) :
    ∀ m : TabSet σ ι, 1 ≤ m.Tabs.length → (m.Tabs.length : Int) ≤ maxInt → 0 ≤ m.active →
      m.active ≤ (m.Tabs.length : Int) - 1 →
      updateTimes ops nav (Msg.KeyMsg k) j m w =
        some ({ m with active := (m.active + (j : Int)) % (m.Tabs.length : Int) }, w) := by
  induction j with
  | zero =>
    intro m _ _ h0 h1
    have hmod : (m.active + ((0 : Nat) : Int)) % (m.Tabs.length : Int) = m.active := by
      simp only [Nat.cast_zero, add_zero]
      exact Int.emod_eq_of_lt h0 (by omega)
    rw [hmod]
    rfl
  | succ j ih =>
    intro m hn hlen h0 h1
    have hpos : (0 : Int) < (m.Tabs.length : Int) := by omega
    have hstep := ih { m with active := (m.active + 1) % (m.Tabs.length : Int) } hn hlen
      (Int.emod_nonneg _ (by omega))
      (by have := Int.emod_lt_of_pos (m.active + 1) hpos; simp only []; omega)
    simp only [updateTimes, Update_tabNext_in_range ops nav m k w hlen h0 h1 hnext]
    rw [hstep]
    simp only [Int.emod_add_emod, Nat.cast_succ]
    have : m.active + 1 + (j : Int) = m.active + ((j : Int) + 1) := by ring
    rw [this]

theorem deliverInOrder_getElem? (ops : ModelOps σ μ κ ω) (msg : Msg μ) (tabs : List (Tab σ)) :
    ∀ (w : ω) (i : Nat) (tab : Tab σ), tabs[i]? = some tab →
      ∃ wi : ω, (deliverInOrder ops msg tabs w).1.1[i]? =
        some { tab with Model := (ops.Update tab.Model msg wi).1.1 } := by
  induction tabs with
  | nil => intro w i tab h; simp at h
  | cons t rest ih =>
    intro w i tab h
    cases i with
    | zero =>
      simp only [List.getElem?_cons_zero, Option.some.injEq] at h
      subst h
      exact ⟨w, by simp [deliverInOrder]⟩
    | succ i =>
      simp only [List.getElem?_cons_succ] at h
      obtain ⟨wi, hwi⟩ := ih (ops.Update t.Model msg w).2 i tab h
      exact ⟨wi, by simpa [deliverInOrder] using hwi⟩

theorem getElem?_set_of_ne {α : Type} (l : List α) (i j : Nat) (x : α) (h : j ≠ i) :
    (l.set i x)[j]? = l[j]? := by
  induction l generalizing i j with
  | nil => simp
  | cons a l ih =>
    cases i with
    | zero =>
      cases j with
      | zero => exact absurd rfl h
      | succ j => simp
    | succ i =>
      cases j with
      | zero => simp
      | succ j =>
        simp only [List.set_cons_succ, List.getElem?_cons_succ]
        exact ih i j (fun e => h (by rw [e]))

/-! ## Adding tabs -/

/-- C1: when some tab of the set already carries `title`, `AddTab` returns
`(nil, ErrDuplicateTab)`, hands back the tab set as it was (same tabs, hence
same tab count, same active index, same dimensions) and leaves the world as it
was for every maker, so the maker is not called. -/
theorem AddTab_duplicate (ops : ModelOps σ μ κ ω) (m : TabSet σ ι) (maker : Maker σ ρ ε ω)
    (parent : ρ) (title : String) (w : ω) (h : ∃ tab ∈ m.Tabs, tab.title = title) :
    m.AddTab ops maker parent title w = ((m, Cmd.nil, some Err.ErrDuplicateTab), w) := by
  have hmem : hasTitle title m.Tabs = true := by
    rw [hasTitle_iff]
    obtain ⟨tab, htab, ht⟩ := h
    exact List.mem_map.mpr ⟨tab, htab, ht⟩
  simp [TabSet.AddTab, hmem]

/-- Instance of C1 at the scenario `AddTab(maker, moduleX, "plan")` twice: the
second call reports the duplicate and logs no call of the maker. -/
theorem AddTab_duplicate_witness :
    (∃ tab ∈ planSet.Tabs, tab.title = "plan") ∧
    planSet.AddTab inboxOps inboxMaker "moduleX" "plan" [] =
      ((planSet, Cmd.nil, some Err.ErrDuplicateTab), []) :=
  have h : ∃ tab ∈ planSet.Tabs, tab.title = "plan" :=
    ⟨{ Model := { name := "moduleX", received := [] }, title := "plan" },
      List.mem_singleton.mpr rfl, rfl⟩
  ⟨h, AddTab_duplicate inboxOps planSet inboxMaker "moduleX" "plan" [] h⟩

/-- C9: when no tab carries `title`, `AddTab` calls `maker.Make(parent, w,
h - 2)` once, in the world it was given, `w` and `h` being the stored width and
height and `h - 2` Go's subtraction on `int` (exact whenever `h - 2` is
representable).  If the maker returns a model, the new tab list is the old one
with the tab `(model, title)` appended at the end, the active index, the
dimensions and the info are as before, no error is returned and the command is
the one returned by the model's `Init()`, called once after the maker.  If the
maker returns an error, that error is returned with a nil command and the tab
set is as before. -/
theorem AddTab_fresh (ops : ModelOps σ μ κ ω) (m : TabSet σ ι) (maker : Maker σ ρ ε ω)
    (parent : ρ) (title : String) (w : ω) (h : ∀ tab ∈ m.Tabs, tab.title ≠ title) :
    (∀ (model : σ) (w1 : ω),
      maker.Make parent m.width (wrapInt (m.height - 2)) w = (Except.ok model, w1) →
      m.AddTab ops maker parent title w =
        (({ Tabs := m.Tabs ++ [{ Model := model, title := title }], width := m.width,
            height := m.height, active := m.active, info := m.info },
          (ops.Init model w1).1, none), (ops.Init model w1).2)) ∧
    (∀ (err : Err ε) (w1 : ω),
      maker.Make parent m.width (wrapInt (m.height - 2)) w = (Except.error err, w1) →
      m.AddTab ops maker parent title w = ((m, Cmd.nil, some err), w1)) ∧
    (minInt + 2 ≤ m.height → m.height ≤ maxInt → wrapInt (m.height - 2) = m.height - 2) := by
  have hfresh : hasTitle title m.Tabs = false := by
    rw [← Bool.not_eq_true, hasTitle_iff]
    intro hmem
    obtain ⟨tab, htab, ht⟩ := List.mem_map.mp hmem
    exact h tab htab ht
  refine ⟨?_, ?_, ?_⟩
  · intro model w1 hmk
    simp only [TabSet.AddTab, hfresh, TabSet.contentWidth, TabSet.contentHeight, tabHeaderHeight,
      hmk]
    rfl
  · intro err w1 hmk
    simp only [TabSet.AddTab, hfresh, TabSet.contentWidth, TabSet.contentHeight, tabHeaderHeight,
      hmk]
    rfl
  · intro hlo hhi
    apply wrapInt_of_mem
    · unfold minInt at *; omega
    · unfold maxInt at *; omega

/-- Instance of C9 on the new tab set `NewTabSet(80, 24)`: adding "plan" for
parent "moduleX" calls the maker once with `(moduleX, 80, 22)` and then the new
model's `Init()`; for the empty parent the maker fails and its error comes
back. -/
theorem AddTab_fresh_witness :
    (NewTabSet 80 24 : TabSet Inbox Unit).AddTab inboxOps inboxMaker "moduleX" "plan" [] =
      (({ Tabs := [{ Model := { name := "moduleX", received := [] }, title := "plan" }],
          width := 80, height := 24, active := 0, info := none },
        Cmd.run "moduleX", none), [Call.make "moduleX" 80 22, Call.init "moduleX"]) ∧
    (NewTabSet 80 24 : TabSet Inbox Unit).AddTab inboxOps inboxMaker "" "plan" [] =
      ((NewTabSet 80 24, Cmd.nil, some (Err.other "no parent")), [Call.make "" 80 22]) ∧
    wrapInt (24 - 2) = 24 - 2 :=
  have h : ∀ tab ∈ (NewTabSet 80 24 : TabSet Inbox Unit).Tabs, tab.title ≠ "plan" :=
    fun tab htab => absurd htab (List.not_mem_nil tab)
  ⟨(AddTab_fresh inboxOps (NewTabSet 80 24) inboxMaker "moduleX" "plan" [] h).1
      { name := "moduleX", received := [] } [Call.make "moduleX" 80 22] rfl,
    (AddTab_fresh inboxOps (NewTabSet 80 24) inboxMaker "" "plan" [] h).2.1
      (Err.other "no parent") [Call.make "" 80 22] rfl,
    (AddTab_fresh inboxOps (NewTabSet 80 24 : TabSet Inbox Unit) inboxMaker "moduleX" "plan" []
      h).2.2 (by decide) (by decide)⟩

/-! ## Invariants of reachable tab sets -/

/-- C2: the active index can leave the range of a non-empty tab set.  Pressing
the tab-next key on the empty set made by `NewTabSet(80, 24)` moves the active
index from 0 to 1, and adding the tab "plan" afterwards leaves one tab with
active index 1; sending that tab set any other key indexes `Tabs[1]` and
panics. -/
theorem active_out_of_range_after_tabNext_on_empty :
    (NewTabSet 80 24 : TabSet Inbox Unit).Update inboxOps tabKeys (Msg.KeyMsg "tab") [] =
      some ((({ Tabs := [], width := 80, height := 24, active := 1, info := none } :
        TabSet Inbox Unit), Cmd.nil), []) ∧
    (({ Tabs := [], width := 80, height := 24, active := 1, info := none } :
        TabSet Inbox Unit).AddTab inboxOps inboxMaker "moduleX" "plan" []).1.1 = strayActive ∧
    Reachable inboxOps tabKeys strayActive ∧
    strayActive.Tabs.length = 1 ∧
    strayActive.active = 1 ∧
    ¬ (0 ≤ strayActive.active ∧ strayActive.active ≤ (strayActive.Tabs.length : Int) - 1) ∧
    strayActive.Update inboxOps tabKeys (Msg.KeyMsg "x") [] = none := by
  have h1 : (NewTabSet 80 24 : TabSet Inbox Unit).Update inboxOps tabKeys (Msg.KeyMsg "tab") [] =
      some ((({ Tabs := [], width := 80, height := 24, active := 1, info := none } :
        TabSet Inbox Unit), Cmd.nil), []) := by
    simp [TabSet.Update, NewTabSet, Matches, tabKeys, Binding.Enabled, wrapInt]
  have h2 : (({ Tabs := [], width := 80, height := 24, active := 1, info := none } :
      TabSet Inbox Unit).AddTab inboxOps inboxMaker "moduleX" "plan" []).1.1 = strayActive := by
    simp [TabSet.AddTab, hasTitle, inboxMaker, inboxOps, strayActive]
  refine ⟨h1, h2, ?_, rfl, rfl, ?_, ?_⟩
  · rw [← h2]
    exact Reachable.addTab inboxMaker "moduleX" "plan" []
      (Reachable.update (Msg.KeyMsg "tab") (Reachable.newTabSet 80 24) h1)
  · simp [strayActive]
  · simp [TabSet.Update, TabSet.updateTab, strayActive, Matches, tabKeys, Binding.Enabled]

/-- C3: the titles of the tabs of every tab set reachable from `NewTabSet` by
`AddTab`, `SetActiveTab`, `SetActiveTabWithTitle` and `Update` are pairwise
distinct. -/
theorem titles_nodup_of_reachable (ops : ModelOps σ μ κ ω) (nav : Navigation)
    (m : TabSet σ ι) (h : Reachable ops nav m) : (titles m.Tabs).Nodup := by
  induction h with
  | newTabSet width height => simp [NewTabSet, titles]
  | @addTab ρ ε m maker parent title w _ ih =>
    unfold TabSet.AddTab
    by_cases hdup : hasTitle title m.Tabs = true
    · simpa [hdup] using ih
    · have hnot : title ∉ titles m.Tabs := fun hmem => hdup ((hasTitle_iff title m.Tabs).mpr hmem)
      simp only [hdup]
      rcases hmk : maker.Make parent m.contentWidth m.contentHeight w with ⟨res, w1⟩
      cases res with
      | error err => simpa using ih
      | ok model =>
        simp only [titles] at hnot ih ⊢
        simp only [Bool.false_eq_true, if_false, List.map_append, List.map_cons, List.map_nil]
        rw [List.nodup_append]
        refine ⟨ih, List.nodup_singleton _, ?_⟩
        intro a ha hb
        rw [List.mem_singleton] at hb
        subst hb
        exact hnot ha
  | setActiveTab tabIndex _ ih =>
    unfold TabSet.SetActiveTab
    split <;> exact ih
  | setActiveTabWithTitle title _ ih =>
    unfold TabSet.SetActiveTabWithTitle
    rw [(setActiveTabWithTitleLoop_frame title _ _ 0).1]
    exact ih
  | update msg _ hupd ih =>
    rw [Update_titles ops nav _ _ msg _ _ _ hupd]
    exact ih

/-- Instance of C3 at a tab set reached through a refused duplicate: `AddTab`
is called with "plan", "apply", "plan" again and "state", and an `Update`
follows.  The second "plan" is not added, so the titles are the three distinct
"plan", "apply", "state". -/
theorem titles_nodup_of_reachable_witness :
    Reachable inboxOps tabKeys notifiedSet ∧
    retriedSet.Update inboxOps tabKeys (Msg.other ()) [] =
      some ((notifiedSet, Cmd.batch [Cmd.batch [Cmd.run "moduleX", Cmd.run "moduleX",
        Cmd.run "moduleX"]]), [Call.update "moduleX", Call.update "moduleX",
        Call.update "moduleX"]) ∧
    titles notifiedSet.Tabs = ["plan", "apply", "state"] ∧
    (titles notifiedSet.Tabs).Nodup :=
  have hupd : retriedSet.Update inboxOps tabKeys (Msg.other ()) [] =
      some ((notifiedSet, Cmd.batch [Cmd.batch [Cmd.run "moduleX", Cmd.run "moduleX",
        Cmd.run "moduleX"]]), [Call.update "moduleX", Call.update "moduleX",
        Call.update "moduleX"]) := by
    simp only [TabSet.Update, updateRest, updateTabs_spec]
    rfl
  have h : Reachable inboxOps tabKeys notifiedSet :=
    Reachable.update (Msg.other ())
      (Reachable.addTab inboxMaker "moduleX" "state" []
        (Reachable.addTab inboxMaker "moduleX" "plan" []
          (Reachable.addTab inboxMaker "moduleX" "apply" []
            (Reachable.addTab inboxMaker "moduleX" "plan" [] (Reachable.newTabSet 80 24)))))
      hupd
  ⟨h, hupd, rfl, titles_nodup_of_reachable inboxOps tabKeys notifiedSet h⟩

/-! ## Selecting the active tab -/

/-- C4, as stated, fails: on the three tabs "plan", "apply", "state" the call
`SetActiveTab(-1)` makes the last tab (index 2) active, not the first. -/
theorem SetActiveTab_neg_one_not_first :
    threeTabs.Tabs.length = 3 ∧ (threeTabs.SetActiveTab (-1)).active = 2 ∧
    (threeTabs.SetActiveTab (-1)).active ≠ 0 := by
  simp [TabSet.SetActiveTab, threeTabs]

/-- C4, amended: on every non-empty tab set both `SetActiveTab(-1)` and
`SetActiveTab(len(Tabs))` make the last tab active, index `len(Tabs) - 1`, and
that index is in range. -/
theorem SetActiveTab_out_of_bounds_selects_last (m : TabSet σ ι) (h : m.Tabs ≠ []) :
    (m.SetActiveTab (-1)).active = (m.Tabs.length : Int) - 1 ∧
    (m.SetActiveTab (m.Tabs.length : Int)).active = (m.Tabs.length : Int) - 1 ∧
    0 ≤ (m.SetActiveTab (-1)).active ∧
    (m.SetActiveTab (-1)).active ≤ ((m.SetActiveTab (-1)).Tabs.length : Int) - 1 ∧
    0 ≤ (m.SetActiveTab (m.Tabs.length : Int)).active ∧
    (m.SetActiveTab (m.Tabs.length : Int)).active ≤
      ((m.SetActiveTab (m.Tabs.length : Int)).Tabs.length : Int) - 1 := by
  have hpos : 0 < m.Tabs.length := List.length_pos.mpr h
  have hneg : (m.SetActiveTab (-1)) = { m with active := (m.Tabs.length : Int) - 1 } := by
    simp [TabSet.SetActiveTab]
  have hlen : (m.SetActiveTab (m.Tabs.length : Int)) =
      { m with active := (m.Tabs.length : Int) - 1 } := by
    simp [TabSet.SetActiveTab]
  rw [hneg, hlen]
  simp only [le_refl, and_true, true_and]
  omega

/-- Instance of the amended C4 at the three tabs "plan", "apply", "state". -/
theorem SetActiveTab_out_of_bounds_selects_last_witness :
    threeTabs.Tabs ≠ [] ∧ (threeTabs.SetActiveTab (-1)).active = 2 ∧
    (threeTabs.SetActiveTab 3).active = 2 :=
  have h : threeTabs.Tabs ≠ [] := by simp [threeTabs]
  have hs := SetActiveTab_out_of_bounds_selects_last threeTabs h
  ⟨h, hs.1, hs.2.1⟩

/-- C5: on a tab set with `n ≥ 1` tabs, `SetActiveTab(i)` makes `i` the active
index when `0 ≤ i ≤ n - 1` and `n - 1`, the last tab, otherwise; the resulting
index is in range and the tabs, the dimensions and the info are unchanged. -/
theorem SetActiveTab_spec (m : TabSet σ ι) (i : Int) (hn : 1 ≤ m.Tabs.length) :
    (m.SetActiveTab i).active =
      (if 0 ≤ i ∧ i ≤ (m.Tabs.length : Int) - 1 then i else (m.Tabs.length : Int) - 1) ∧
    (0 ≤ (m.SetActiveTab i).active ∧
      (m.SetActiveTab i).active ≤ (m.Tabs.length : Int) - 1) ∧
    (m.SetActiveTab i).Tabs = m.Tabs ∧
    (m.SetActiveTab i).width = m.width ∧
    (m.SetActiveTab i).height = m.height ∧
    (m.SetActiveTab i).info = m.info := by
  unfold TabSet.SetActiveTab
  by_cases hin : 0 ≤ i ∧ i ≤ (m.Tabs.length : Int) - 1
  · have hout : ¬ (i < 0 ∨ i > (m.Tabs.length : Int) - 1) := by omega
    simp only [hout, hin, if_false]
    simp
  · have hout : i < 0 ∨ i > (m.Tabs.length : Int) - 1 := by omega
    simp only [hout, hin, if_true, if_false]
    simp only [le_refl, and_true, true_and]
    omega

/-- Instance of C5 at the three tabs "plan", "apply", "state" and index 7. -/
theorem SetActiveTab_spec_witness :
    1 ≤ threeTabs.Tabs.length ∧ (threeTabs.SetActiveTab 7).active = 2 ∧
    (threeTabs.SetActiveTab 7).Tabs = threeTabs.Tabs :=
  have h : 1 ≤ threeTabs.Tabs.length := by simp [threeTabs]
  have hs := SetActiveTab_spec threeTabs 7 h
  ⟨h, hs.1, hs.2.2.1⟩

/-- C6: `SetActiveTabWithTitle(title)` hands back the tab set unchanged when no
tab carries `title`; when some tab does, the active index becomes the index
`k` of the first tab carrying it (tab `k` has the title and no earlier tab
has), so that `Tabs[active].title == title`, and nothing else changes. -/
theorem SetActiveTabWithTitle_spec (m : TabSet σ ι) (title : String) :
    ((∀ tab ∈ m.Tabs, tab.title ≠ title) → m.SetActiveTabWithTitle title = m) ∧
    ((∃ tab ∈ m.Tabs, tab.title = title) →
      ∃ k : Nat, (titles m.Tabs)[k]? = some title ∧
        (∀ j : Nat, j < k → (titles m.Tabs)[j]? ≠ some title) ∧
        m.SetActiveTabWithTitle title = { m with active := (k : Int) } ∧
        (titles (m.SetActiveTabWithTitle title).Tabs)[
          (m.SetActiveTabWithTitle title).active.toNat]? = some title) := by
  refine ⟨fun h => setActiveTabWithTitleLoop_absent title m m.Tabs 0 h, fun h => ?_⟩
  obtain ⟨k, hk, hfirst, hres⟩ := setActiveTabWithTitleLoop_present title m m.Tabs 0 h
  simp only [Nat.zero_add] at hres
  refine ⟨k, hk, hfirst, hres, ?_⟩
  unfold TabSet.SetActiveTabWithTitle
  rw [hres]
  simpa using hk

/-- Instance of C6 at the three tabs "plan", "apply", "state": the unknown
title "logs" changes nothing, and the title "state" makes the first tab
carrying it active. -/
theorem SetActiveTabWithTitle_spec_witness :
    (∀ tab ∈ threeTabs.Tabs, tab.title ≠ "logs") ∧
    threeTabs.SetActiveTabWithTitle "logs" = threeTabs ∧
    (∃ tab ∈ threeTabs.Tabs, tab.title = "state") ∧
    (∃ k : Nat, (titles threeTabs.Tabs)[k]? = some "state" ∧
      (∀ j : Nat, j < k → (titles threeTabs.Tabs)[j]? ≠ some "state") ∧
      threeTabs.SetActiveTabWithTitle "state" = { threeTabs with active := (k : Int) } ∧
      (titles (threeTabs.SetActiveTabWithTitle "state").Tabs)[
        (threeTabs.SetActiveTabWithTitle "state").active.toNat]? = some "state") :=
  have h1 : ∀ tab ∈ threeTabs.Tabs, tab.title ≠ "logs" := by
    intro tab htab
    simp only [threeTabs, List.mem_cons, List.mem_singleton, List.not_mem_nil, or_false] at htab
    rcases htab with rfl | rfl | rfl <;> decide
  have h2 : ∃ tab ∈ threeTabs.Tabs, tab.title = "state" :=
    ⟨{ Model := { name := "s", received := [] }, title := "state" }, by simp [threeTabs], rfl⟩
  ⟨h1, (SetActiveTabWithTitle_spec threeTabs "logs").1 h1, h2,
    (SetActiveTabWithTitle_spec threeTabs "state").2 h2⟩

/-! ## Cycling through the tabs -/

/-- C7: on a tab set with `n ≥ 1` tabs (`n` fitting in a Go `int`, as every
slice length does) and active index `a` with `0 ≤ a ≤ n - 1`, `Update` with a
key matching the tab-next binding makes `(a + 1) mod n` active, and `n` such
presses in a row give back the tab set one started from; `Update` with a key
matching the tab-previous binding (and not already taken by the tab-next case
above it) makes `max(a - 1, 0)` active.  Either way the tabs and the world are
untouched, so no child is updated, and the command returned is nil. -/
theorem Update_tab_cycling (ops : ModelOps σ μ κ ω) (nav : Navigation) (m : TabSet σ ι)
    (next last : String) (w : ω) (hn : 1 ≤ m.Tabs.length)
    (hlen : (m.Tabs.length : Int) ≤ maxInt) (h0 : 0 ≤ m.active)
    (h1 : m.active ≤ (m.Tabs.length : Int) - 1)
    (hnext : Matches next nav.TabNext = true)
    (hlast : Matches last nav.TabLast = true) (hnot : Matches last nav.TabNext = false) :
    m.Update ops nav (Msg.KeyMsg next) w =
      some (({ m with active := (m.active + 1) % (m.Tabs.length : Int) }, Cmd.nil), w) ∧
    updateTimes ops nav (Msg.KeyMsg next) m.Tabs.length m w = some (m, w) ∧
    m.Update ops nav (Msg.KeyMsg last) w =
      some (({ m with active := max (m.active - 1) 0 }, Cmd.nil), w) := by
  refine ⟨Update_tabNext_in_range ops nav m next w hlen h0 h1 hnext, ?_, ?_⟩
  · rw [updateTimes_tabNext ops nav next w hnext m.Tabs.length m hn hlen h0 h1]
    have hmod : (m.active + (m.Tabs.length : Int)) % (m.Tabs.length : Int) = m.active := by
      rw [Int.add_emod_self]
      exact Int.emod_eq_of_lt h0 (by omega)
    rw [hmod]
  · have hw : wrapInt (m.active - 1) = m.active - 1 := by
      apply wrapInt_of_mem
      · unfold minInt; omega
      · unfold maxInt at *; omega
    simp [TabSet.Update, hnot, hlast, hw]

/-- Instance of C7 at the three tabs "plan", "apply", "state" with "apply"
active: tab moves on to index 2, three tabs come back round, and shift+tab
moves back to index 0. -/
theorem Update_tab_cycling_witness :
    threeTabs.Update inboxOps tabKeys (Msg.KeyMsg "tab") [] =
      some (({ threeTabs with active := 2 }, Cmd.nil), []) ∧
    updateTimes inboxOps tabKeys (Msg.KeyMsg "tab") 3 threeTabs [] = some (threeTabs, []) ∧
    threeTabs.Update inboxOps tabKeys (Msg.KeyMsg "shift+tab") [] =
      some (({ threeTabs with active := 0 }, Cmd.nil), []) :=
  Update_tab_cycling inboxOps tabKeys threeTabs "tab" "shift+tab" []
    (by decide) (by decide) (by decide) (by decide) (by decide) (by decide) (by decide)

/-! ## Resizing and routing of messages -/

/-- C8: for every tab set and every `BodyResizeMsg` with width `W` and height
`H`, `Update` returns; it stores `W` and `H`, keeps the active index, the info
and the tab titles, returns a nil command, and hands the one message
`BodyResizeMsg` with width `W` and height `H - 2` to the child of every tab,
active or not, exactly once and in tab order (`H - 2` being Go's subtraction
on `int`, exact whenever `H - 2` is representable). -/
theorem Update_BodyResizeMsg (ops : ModelOps σ μ κ ω) (nav : Navigation) (m : TabSet σ ι)
    (W H : Int) (w : ω) :
    m.Update ops nav (Msg.BodyResizeMsg W H) w =
      some (({ Tabs := (deliverInOrder ops (Msg.BodyResizeMsg W (wrapInt (H - 2))) m.Tabs w).1.1,
               width := W, height := H, active := m.active, info := m.info }, Cmd.nil),
        (deliverInOrder ops (Msg.BodyResizeMsg W (wrapInt (H - 2))) m.Tabs w).2) ∧
    titles (deliverInOrder ops (Msg.BodyResizeMsg W (wrapInt (H - 2))) m.Tabs w).1.1 =
      titles m.Tabs ∧
    (∀ (i : Nat) (tab : Tab σ), m.Tabs[i]? = some tab →
      ∃ wi : ω, (deliverInOrder ops (Msg.BodyResizeMsg W (wrapInt (H - 2))) m.Tabs w).1.1[i]? =
        some { tab with
          Model := (ops.Update tab.Model (Msg.BodyResizeMsg W (wrapInt (H - 2))) wi).1.1 }) ∧
    (minInt + 2 ≤ H → H ≤ maxInt → wrapInt (H - 2) = H - 2) := by
  refine ⟨?_, titles_deliverInOrder ops _ m.Tabs w,
    fun i tab hi => deliverInOrder_getElem? ops _ m.Tabs w i tab hi, ?_⟩
  · simp only [TabSet.Update, updateTabs_spec, TabSet.contentWidth, TabSet.contentHeight,
      tabHeaderHeight]
  · intro hlo hhi
    apply wrapInt_of_mem
    · unfold minInt at *; omega
    · unfold maxInt at *; omega

/-- Instance of C8 at the three tabs "plan", "apply", "state" with "apply"
active: a resize to 100 by 40 reaches each of the three children once, in tab
order, as a resize to 100 by 38. -/
theorem Update_BodyResizeMsg_witness :
    threeTabs.Update inboxOps tabKeys (Msg.BodyResizeMsg 100 40) [] =
      some (({ width := 100, height := 40, active := 1, info := none,
               Tabs := [
                 { Model := { name := "p", received := [Msg.BodyResizeMsg 100 38] },
                   title := "plan" },
                 { Model := { name := "a", received := [Msg.BodyResizeMsg 100 38] },
                   title := "apply" },
                 { Model := { name := "s", received := [Msg.BodyResizeMsg 100 38] },
                   title := "state" }] }, Cmd.nil),
        [Call.update "p", Call.update "a", Call.update "s"]) ∧
    wrapInt (40 - 2) = 40 - 2 :=
  ⟨(Update_BodyResizeMsg inboxOps tabKeys threeTabs 100 40 []).1,
    (Update_BodyResizeMsg inboxOps tabKeys threeTabs 100 40 []).2.2.2 (by decide) (by decide)⟩

/-- C10: on a non-empty tab set whose active index is in range, a key message
matching neither the tab-next nor the tab-previous binding goes to the `Update`
of the active tab's child and to no other: the active tab gets the updated
model, every other tab is as before, and the child's command and world are
returned.  A message that is neither a key message nor a `BodyResizeMsg` goes,
as it is, to the `Update` of every tab's child exactly once, first tab first,
on any tab set; the command returned batches the children's commands in tab
order. -/
theorem Update_routing (ops : ModelOps σ μ κ ω) (nav : Navigation) (m : TabSet σ ι)
    (k : String) (x : μ) (w : ω) (hne : m.Tabs ≠ []) (h0 : 0 ≤ m.active)
    (h1 : m.active ≤ (m.Tabs.length : Int) - 1)
    (hnext : Matches k nav.TabNext = false) (hlast : Matches k nav.TabLast = false) :
    (∃ tab : Tab σ, m.Tabs[m.active.toNat]? = some tab ∧
      m.Update ops nav (Msg.KeyMsg k) w =
        some (({ m with
              Tabs := m.Tabs.set m.active.toNat
                { tab with Model := (ops.Update tab.Model (Msg.KeyMsg k) w).1.1 } },
            (ops.Update tab.Model (Msg.KeyMsg k) w).1.2),
          (ops.Update tab.Model (Msg.KeyMsg k) w).2) ∧
      ∀ j : Nat, j ≠ m.active.toNat →
        (m.Tabs.set m.active.toNat
          { tab with Model := (ops.Update tab.Model (Msg.KeyMsg k) w).1.1 })[j]? = m.Tabs[j]?) ∧
    m.Update ops nav (Msg.other x) w =
      some (({ m with Tabs := (deliverInOrder ops (Msg.other x) m.Tabs w).1.1 },
          Cmd.batch [Cmd.batch (deliverInOrder ops (Msg.other x) m.Tabs w).1.2]),
        (deliverInOrder ops (Msg.other x) m.Tabs w).2) ∧
    (∀ (i : Nat) (tab : Tab σ), m.Tabs[i]? = some tab →
      ∃ wi : ω, (deliverInOrder ops (Msg.other x) m.Tabs w).1.1[i]? =
        some { tab with Model := (ops.Update tab.Model (Msg.other x) wi).1.1 }) := by
  have hpos : 0 < m.Tabs.length := List.length_pos.mpr hne
  have hlt : m.active.toNat < m.Tabs.length := by omega
  refine ⟨⟨m.Tabs[m.active.toNat], List.getElem?_eq_getElem hlt, ?_, ?_⟩, ?_,
    fun i tab hi => deliverInOrder_getElem? ops _ m.Tabs w i tab hi⟩
  · simp only [TabSet.Update, hnext, hlast, TabSet.updateTab, h0, hpos,
      List.getElem?_eq_getElem hlt]
    simp
  · intro j hj
    exact getElem?_set_of_ne m.Tabs m.active.toNat j _ hj
  · simp only [TabSet.Update, updateRest, updateTabs_spec]

/-- Instance of C10 at the three tabs "plan", "apply", "state" with "apply"
active: the key "x" reaches the child "a" alone, and a message of another type
reaches "p", "a" and "s" in that order. -/
theorem Update_routing_witness :
    threeTabs.Update inboxOps tabKeys (Msg.KeyMsg "x") [] =
      some (({ width := 80, height := 24, active := 1, info := none,
               Tabs := [
                 { Model := { name := "p", received := [] }, title := "plan" },
                 { Model := { name := "a", received := [Msg.KeyMsg "x"] }, title := "apply" },
                 { Model := { name := "s", received := [] }, title := "state" }] },
          Cmd.run "a"),
        [Call.update "a"]) ∧
    threeTabs.Update inboxOps tabKeys (Msg.other ()) [] =
      some (({ width := 80, height := 24, active := 1, info := none,
               Tabs := [
                 { Model := { name := "p", received := [Msg.other ()] }, title := "plan" },
                 { Model := { name := "a", received := [Msg.other ()] }, title := "apply" },
                 { Model := { name := "s", received := [Msg.other ()] }, title := "state" }] },
          Cmd.batch [Cmd.batch [Cmd.run "p", Cmd.run "a", Cmd.run "s"]]),
        [Call.update "p", Call.update "a", Call.update "s"]) :=
  have h := Update_routing inboxOps tabKeys threeTabs "x" () []
    (by simp [threeTabs]) (by decide) (by decide) (by decide) (by decide)
  ⟨by
    obtain ⟨tab, htab, hupd, _⟩ := h.1
    have htab2 : tab = { Model := { name := "a", received := [] }, title := "apply" } := by
      have : threeTabs.Tabs[threeTabs.active.toNat]? =
          some { Model := { name := "a", received := [] }, title := "apply" } := rfl
      rw [this] at htab
      exact (Option.some.inj htab).symm
    subst htab2
    exact hupd, h.2.1⟩

/-! ## Parent columns and cells -/

/-- C14: `parentColumns` selects the columns by parent kind as its comments
say.  Tasks table: module, workspace, run, task under Global; workspace, run,
task under Module; run, task under Workspace; task alone under any other
parent kind.  Runs table: module, workspace, run under Global; workspace, run
under Module; run alone otherwise.  Workspaces table: module, workspace under
Global; workspace alone otherwise.  Modules table: module alone, always.  In
every case the table's own column comes last and the columns are in the
hierarchy order module, workspace, run, task. -/
theorem parentColumns_spec (L : Int) (parentKind : Kind) :
    parentColumns L modelKind.TaskListKind Kind.Global =
      [moduleColumn, workspaceColumn, runColumn L, taskColumn L] ∧
    parentColumns L modelKind.TaskListKind Kind.Module =
      [workspaceColumn, runColumn L, taskColumn L] ∧
    parentColumns L modelKind.TaskListKind Kind.Workspace = [runColumn L, taskColumn L] ∧
    (parentKind ≠ Kind.Global → parentKind ≠ Kind.Module → parentKind ≠ Kind.Workspace →
      parentColumns L modelKind.TaskListKind parentKind = [taskColumn L]) ∧
    parentColumns L modelKind.RunListKind Kind.Global =
      [moduleColumn, workspaceColumn, runColumn L] ∧
    parentColumns L modelKind.RunListKind Kind.Module = [workspaceColumn, runColumn L] ∧
    (parentKind ≠ Kind.Global → parentKind ≠ Kind.Module →
      parentColumns L modelKind.RunListKind parentKind = [runColumn L]) ∧
    parentColumns L modelKind.WorkspaceListKind Kind.Global = [moduleColumn, workspaceColumn] ∧
    (parentKind ≠ Kind.Global →
      parentColumns L modelKind.WorkspaceListKind parentKind = [workspaceColumn]) ∧
    parentColumns L modelKind.ModuleListKind parentKind = [moduleColumn] ∧
    (∀ (tbl : modelKind) (own : Column), ownColumn L tbl = some own →
      (parentColumns L tbl parentKind).getLast? = some own) ∧
    (∀ tbl : modelKind, (parentColumns L tbl parentKind).Sublist (hierarchy L)) := by
  refine ⟨rfl, rfl, rfl, ?_, rfl, rfl, ?_, rfl, ?_, rfl, ?_, ?_⟩
  · intro h1 h2 h3
    cases parentKind <;> first | rfl | contradiction
  · intro h1 h2
    cases parentKind <;> first | rfl | contradiction
  · intro h1
    cases parentKind <;> first | rfl | contradiction
  · intro tbl own hown
    cases tbl <;> cases parentKind <;> simp [ownColumn] at hown <;> subst hown <;> rfl
  · intro tbl
    have hm : ([moduleColumn] : List Column).Sublist (hierarchy L) :=
      List.IsInfix.sublist ⟨[], [workspaceColumn, runColumn L, taskColumn L], rfl⟩
    have hmw : ([moduleColumn, workspaceColumn] : List Column).Sublist (hierarchy L) :=
      List.IsInfix.sublist ⟨[], [runColumn L, taskColumn L], rfl⟩
    have hw : ([workspaceColumn] : List Column).Sublist (hierarchy L) :=
      List.IsInfix.sublist ⟨[moduleColumn], [runColumn L, taskColumn L], rfl⟩
    have hmwr : ([moduleColumn, workspaceColumn, runColumn L] : List Column).Sublist
        (hierarchy L) :=
      List.IsInfix.sublist ⟨[], [taskColumn L], rfl⟩
    have hwr : ([workspaceColumn, runColumn L] : List Column).Sublist (hierarchy L) :=
      List.IsInfix.sublist ⟨[moduleColumn], [taskColumn L], rfl⟩
    have hr : ([runColumn L] : List Column).Sublist (hierarchy L) :=
      List.IsInfix.sublist ⟨[moduleColumn, workspaceColumn], [taskColumn L], rfl⟩
    have hwrt : ([workspaceColumn, runColumn L, taskColumn L] : List Column).Sublist
        (hierarchy L) :=
      List.IsInfix.sublist ⟨[moduleColumn], [], rfl⟩
    have hrt : ([runColumn L, taskColumn L] : List Column).Sublist (hierarchy L) :=
      List.IsInfix.sublist ⟨[moduleColumn, workspaceColumn], [], rfl⟩
    have ht : ([taskColumn L] : List Column).Sublist (hierarchy L) :=
      List.IsInfix.sublist ⟨[moduleColumn, workspaceColumn, runColumn L], [], rfl⟩
    cases tbl <;> cases parentKind <;>
      first
        | exact hm | exact hmw | exact hw | exact hmwr | exact hwr | exact hr
        | exact hwrt | exact hrt | exact ht | exact List.Sublist.refl _
        | exact List.nil_sublist _

/-- Instance of C14 at a parent of another kind (a run, say) and an ID width
of 10: tasks show the task column alone, runs the run column alone, workspaces
the workspace column alone. -/
theorem parentColumns_spec_witness :
    parentColumns 10 modelKind.TaskListKind (Kind.other 0) = [taskColumn 10] ∧
    parentColumns 10 modelKind.RunListKind (Kind.other 0) = [runColumn 10] ∧
    parentColumns 10 modelKind.WorkspaceListKind (Kind.other 0) = [workspaceColumn] ∧
    (parentColumns 10 modelKind.RunListKind (Kind.other 0)).getLast? = some (runColumn 10) :=
  have h := parentColumns_spec 10 (Kind.other 0)
  ⟨h.2.2.2.1 (by decide) (by decide) (by decide),
    h.2.2.2.2.2.2.1 (by decide) (by decide),
    h.2.2.2.2.2.2.2.2.1 (by decide),
    h.2.2.2.2.2.2.2.2.2.2.1 modelKind.RunListKind (runColumn 10) rfl⟩

/-- C15: for every table kind, parent kind and resource whose ancestors needed
by that table are there, `parentCells` returns, with exactly as many cells as
`parentColumns` has columns, and its i-th cell holds the value of the i-th
column: module path, workspace name, run ID, own ID.  On the tasks table a
missing workspace or run does not drop the cell: the cell is blank. -/
theorem parentCells_aligned (L : Int) (tbl : modelKind) (parentKind : Kind) (res : Resource)
    (h : ancestorsResolve L tbl parentKind res) :
    parentCells tbl parentKind res = some ((parentColumns L tbl parentKind).map (cellFor res)) ∧
    (∀ cells : List Cell, parentCells tbl parentKind res = some cells →
      cells.length = (parentColumns L tbl parentKind).length ∧
      ∀ i : Nat, cells[i]? = ((parentColumns L tbl parentKind)[i]?).map (cellFor res)) ∧
    (∀ a : Ancestor, res.Module = some a → cellFor res moduleColumn = { Str := a.str }) ∧
    (∀ a : Ancestor, res.Workspace = some a →
      cellFor res workspaceColumn = { Str := a.str }) ∧
    (∀ a : Ancestor, res.Run = some a → cellFor res (runColumn L) = { Str := a.idStr }) ∧
    (res.Workspace = none → cellFor res workspaceColumn = { Str := "" }) ∧
    (res.Run = none → cellFor res (runColumn L) = { Str := "" }) ∧
    cellFor res (taskColumn L) = { Str := res.idStr } := by
  have hmain : parentCells tbl parentKind res =
      some ((parentColumns L tbl parentKind).map (cellFor res)) := by
    obtain ⟨hm, hw, hr⟩ := h
    rcases res with ⟨idStr, mo, ws, ru⟩
    cases tbl <;> cases parentKind <;> cases mo <;> cases ws <;> cases ru <;>
      simp [parentColumns, parentCells, cellFor, moduleCell, workspaceCell, runCell,
        taskWorkspaceCell, taskRunCell, moduleColumn, workspaceColumn, runColumn, taskColumn]
        at hm hw hr ⊢
  refine ⟨hmain, ?_, ?_, ?_, ?_, ?_, ?_, ?_⟩
  · intro cells hcells
    rw [hmain] at hcells
    have hc := Option.some.inj hcells
    subst hc
    exact ⟨List.length_map _ _, fun i => List.getElem?_map _ _ _⟩
  · intro a ha
    simp [cellFor, moduleColumn, ha]
  · intro a ha
    simp [cellFor, workspaceColumn, ha]
  · intro a ha
    simp [cellFor, runColumn, ha]
  · intro hnone
    simp [cellFor, workspaceColumn, hnone]
  · intro hnone
    simp [cellFor, runColumn, hnone]
  · simp [cellFor, taskColumn]

/-- Instance of C15 on the global tasks table at a task of module "infra/vpc"
that has neither workspace nor run: four cells for four columns, the two
middle ones blank. -/
theorem parentCells_aligned_witness :
    parentCells modelKind.TaskListKind Kind.Global
        { idStr := "task-1", Module := some { str := "infra/vpc", idStr := "mod-1" },
          Workspace := none, Run := none } =
      some [{ Str := "infra/vpc" }, { Str := "" }, { Str := "" }, { Str := "task-1" }] ∧
    (parentColumns 10 modelKind.TaskListKind Kind.Global).length = 4 :=
  ⟨(parentCells_aligned 10 modelKind.TaskListKind Kind.Global
      { idStr := "task-1", Module := some { str := "infra/vpc", idStr := "mod-1" },
        Workspace := none, Run := none }
      ⟨fun _ => rfl, fun hne => absurd rfl hne, fun hne => absurd rfl hne⟩).1, rfl⟩

/-! ## Minimum dimensions -/

/-- C16: the four checks of the package `init` function pass for the declared
constants, so it does not panic: two minimum pane heights plus the prompt and
the help widget are within `MinContentHeight`, which is `MinHeight` less the
footer; two minimum pane widths are within `MinContentWidth`; the minimum pane
height and width are within the defaults of the top right and left panes.
Hence two panes of minimum height, the prompt, the help widget and the footer
fit within `MinHeight`. -/
theorem init_does_not_panic :
    init = Except.ok () ∧
    2 * minPaneHeight + PromptHeight + HelpWidgetHeight ≤ MinContentHeight ∧
    MinContentHeight = MinHeight - FooterHeight ∧
    2 * minPaneWidth ≤ MinContentWidth ∧
    minPaneHeight ≤ defaultTopRightPaneHeight ∧
    minPaneWidth ≤ defaultLeftPaneWidth ∧
    2 * minPaneHeight + PromptHeight + HelpWidgetHeight + FooterHeight ≤ MinHeight := by
  refine ⟨rfl, ?_, rfl, ?_, ?_, ?_, ?_⟩ <;> decide

/-! ## The short help -/

theorem helpColumns_getElem? : ∀ (bindings : List Help) (i : Nat) (b : Help),
    bindings[i]? = some b →
    ∃ col, (helpColumns bindings)[i / 3]? = some col ∧ col[i % 3]? = some b := by
  intro bindings
  induction bindings using helpColumns.induct with
  | case1 => intro i b h; simp at h
  | case2 x y z rest ih =>
    intro i b h
    rw [helpColumns]
    match i, h with
    | 0, h => exact ⟨[x, y, z], by simp, by simpa using h⟩
    | 1, h => exact ⟨[x, y, z], by simp, by simpa using h⟩
    | 2, h => exact ⟨[x, y, z], by simp, by simpa using h⟩
    | j + 3, h =>
      have h2 : rest[j]? = some b := by simpa using h
      obtain ⟨col, hc, hb⟩ := ih j b h2
      refine ⟨col, ?_, ?_⟩
      · have : (j + 3) / 3 = j / 3 + 1 := by omega
        rw [this]
        simpa using hc
      · have : (j + 3) % 3 = j % 3 := by omega
        rw [this]
        exact hb
  | case3 rest h1 h2 =>
    intro i b h
    have hdef : helpColumns rest = [rest] := by
      unfold helpColumns
      split
      · exact absurd rfl h1
      · exact absurd rfl (h2 _ _ _ _)
      · rfl
    rw [hdef]
    have hlen : rest.length < 3 := by
      match rest, h2 with
      | [], _ => simp
      | [_], _ => simp
      | [_, _], _ => simp
      | a :: b :: c :: r, h2 => exact absurd rfl (h2 a b c r)
    have hi : i < rest.length := by
      by_contra hcon
      rw [List.getElem?_eq_none (by omega)] at h
      exact absurd h (by simp)
    have h0 : i / 3 = 0 := by omega
    have h3 : i % 3 = i := by omega
    rw [h0, h3]
    exact ⟨rest, by simp, h⟩

theorem helpColumns_cases (rest : List Help) (h1 : rest = [] → False)
    (h2 : ∀ a b c r, rest = a :: b :: c :: r → False) :
    helpColumns rest = [rest] ∧ 1 ≤ rest.length ∧ rest.length < 3 := by
  match rest, h1, h2 with
  | [], h1, _ => exact absurd rfl h1
  | [_], _, _ => simp [helpColumns]
  | [_, _], _, _ => simp [helpColumns]
  | a :: b :: c :: r, _, h2 => exact absurd rfl (h2 a b c r)

theorem helpColumns_length (bindings : List Help) :
    (helpColumns bindings).length = (bindings.length + 2) / 3 := by
  induction bindings using helpColumns.induct with
  | case1 => simp [helpColumns]
  | case2 x y z rest ih =>
    rw [helpColumns]
    simp only [List.length_cons, ih]
    omega
  | case3 rest h1 h2 =>
    obtain ⟨hdef, hlo, hhi⟩ := helpColumns_cases rest h1 h2
    rw [hdef]
    simp only [List.length_singleton]
    omega

theorem helpColumns_length_le (bindings : List Help) :
    ∀ col ∈ helpColumns bindings, 1 ≤ col.length ∧ col.length ≤ 3 := by
  induction bindings using helpColumns.induct with
  | case1 => simp [helpColumns]
  | case2 x y z rest ih =>
    rw [helpColumns]
    intro col hcol
    rcases List.mem_cons.mp hcol with rfl | hmem
    · simp
    · exact ih col hmem
  | case3 rest h1 h2 =>
    obtain ⟨hdef, hlo, hhi⟩ := helpColumns_cases rest h1 h2
    rw [hdef]
    intro col hcol
    rw [List.mem_singleton] at hcol
    subst hcol
    omega

theorem le_columnWidth (col : List Help) (b : Help) (h : b ∈ col) :
    (helpEntry b).length ≤ columnWidth col := by
  induction col with
  | nil => simp at h
  | cons a col ih =>
    unfold columnWidth at ih ⊢
    simp only [List.map_cons, List.foldr_cons]
    rcases List.mem_cons.mp h with rfl | hmem
    · exact Nat.le_max_left _ _
    · exact Nat.le_trans (ih hmem) (Nat.le_max_right _ _)

theorem padRight_length (s : String) (n : Nat) : (padRight s n).length = max s.length n := by
  unfold padRight
  rw [String.length_append]
  have : (String.mk (List.replicate (n - s.length) ' ')).length = n - s.length := by
    show (List.replicate (n - s.length) ' ').length = n - s.length
    exact List.length_replicate _ _
  rw [this]
  omega

theorem helpCell_length (col : List Help) (r : Nat) :
    (helpCell col r).length = columnWidth col + 3 := by
  unfold helpCell
  rw [String.length_append, padRight_length]
  have h3 : ("   " : String).length = 3 := by decide
  rw [h3]
  cases hr : col[r]? with
  | none =>
    have : ("" : String).length = 0 := by decide
    simp only [this]
    omega
  | some b =>
    have hmem : b ∈ col := List.getElem?_mem hr
    have := le_columnWidth col b hmem
    simp only []
    omega

theorem helpCell_blank (col : List Help) (r : Nat) (h : col[r]? = none) :
    helpCell col r = String.mk (List.replicate (columnWidth col + 3) ' ') := by
  unfold helpCell padRight
  rw [h]
  apply String.ext
  simp [String.length, List.replicate_add]

/-- C13: when the columns fit in `maxWidth`, `shortHelpView` lays the bindings
out column-major in columns of three rows, in input order: the result is the
rows joined by newlines, three rows when there are at least three bindings;
there is a column for every three bindings, begun or complete; the binding at
index `i` stands in column `i div 3`, row `i mod 3`, as the key, a space and
the description, padded to the column's width and followed by three blanks;
every cell of a column has that common width plus the gap, and a cell of the
last column without a binding is all blanks. -/
theorem shortHelpView_layout (overflow : List Help → Int → String) (bindings : List Help)
    (maxWidth : Int) (hfit : (helpWidth (helpColumns bindings) : Int) ≤ maxWidth) :
    shortHelpView overflow bindings maxWidth =
      String.intercalate "\n"
        ((List.range (min 3 bindings.length)).map
          (fun r => String.join ((helpColumns bindings).map (fun col => helpCell col r)))) ∧
    (3 ≤ bindings.length →
      ((List.range (min 3 bindings.length)).map
        (fun r => String.join ((helpColumns bindings).map (fun col => helpCell col r)))).length
        = 3) ∧
    (helpColumns bindings).length = (bindings.length + 2) / 3 ∧
    (∀ (i : Nat) (b : Help), bindings[i]? = some b →
      ∃ col : List Help, (helpColumns bindings)[i / 3]? = some col ∧ col[i % 3]? = some b ∧
        helpCell col (i % 3) = padRight (b.Key ++ " " ++ b.Desc) (columnWidth col) ++ "   " ∧
        (b.Key ++ " " ++ b.Desc).length ≤ columnWidth col) ∧
    (∀ col ∈ helpColumns bindings, ∀ r : Nat,
      (helpCell col r).length = columnWidth col + 3 ∧ 1 ≤ col.length ∧ col.length ≤ 3 ∧
      (col.length ≤ r →
        helpCell col r = String.mk (List.replicate (columnWidth col + 3) ' '))) := by
  refine ⟨?_, ?_, helpColumns_length bindings, ?_, ?_⟩
  · simp only [shortHelpView, hfit, if_true]
    rfl
  · intro h3
    rw [List.length_map, List.length_range]
    omega
  · intro i b hb
    obtain ⟨col, hcol, hrow⟩ := helpColumns_getElem? bindings i b hb
    refine ⟨col, hcol, hrow, ?_, le_columnWidth col b (List.getElem?_mem hrow)⟩
    simp only [helpCell, hrow]
    rfl
  · intro col hcol r
    obtain ⟨hlo, hhi⟩ := helpColumns_length_le bindings col hcol
    exact ⟨helpCell_length col r, hlo, hhi,
      fun hr => helpCell_blank col r (List.getElem?_eq_none hr)⟩

/-- Instance of C13 at the three cases of `Test_render`, all at width 30: the
seven bindings a to g, the first four of them, and the first three. -/
theorem shortHelpView_layout_witness :
    shortHelpView (fun _ _ => "") sevenBindings 30 =
      "a aaa   d ddd   g ggg   \nb bbb   e eee           \nc ccc   f fff           " ∧
    shortHelpView (fun _ _ => "") (sevenBindings.take 4) 30 =
      "a aaa   d ddd   \nb bbb           \nc ccc           " ∧
    shortHelpView (fun _ _ => "") (sevenBindings.take 3) 30 = "a aaa   \nb bbb   \nc ccc   " :=
  ⟨(shortHelpView_layout (fun _ _ => "") sevenBindings 30 (by decide)).1,
    (shortHelpView_layout (fun _ _ => "") (sevenBindings.take 4) 30 (by decide)).1,
    (shortHelpView_layout (fun _ _ => "") (sevenBindings.take 3) 30 (by decide)).1⟩

/-! ## Resizing the terminal -/

/-- C12: for every `tea.WindowSizeMsg` with width `W` and height `H`, `Update`
of the top-level model stores `W` and `H`, sets the navigator's width to `W`
and its height to `H - 6`, and returns the command whose message is
`tui.BodyResizeMsg` with that same width `W` and height `H - 6`; nothing else
in the model changes.  The 6 is header 3, title line 1, horizontal rule 1 and
message footer 1, and `H - 6` is Go's subtraction on `int`, exact whenever
`H - 6` is representable. -/
theorem top_Update_WindowSizeMsg {ν μ κ ω : Type} (d : top.Deps ν μ κ ω) (m : top.model ν)
    (W H : Int) (w : ω) :
    m.Update d (top.Msg.WindowSizeMsg W H) w =
      (({ navigator := { width := W, height := wrapInt (H - 6), rest := m.navigator.rest },
          width := W, height := H, showHelp := m.showHelp, err := m.err, dump := m.dump },
        top.Cmd.send (top.Msg.BodyResizeMsg W (wrapInt (H - 6)))),
       if m.dump then d.Fdump (top.Msg.WindowSizeMsg W H) w else w) ∧
    top.headerHeight + top.breadcrumbsHeight + top.horizontalRuleHeight +
      top.messageFooterHeight = 6 ∧
    (minInt + 6 ≤ H → H ≤ maxInt → wrapInt (H - 6) = H - 6) := by
  have hwrap : wrapInt (wrapInt (wrapInt (wrapInt (H - 3) - 1) - 1) - 1) = wrapInt (H - 6) := by
    unfold wrapInt
    omega
  refine ⟨?_, by decide, ?_⟩
  · simp only [top.model.Update, top.dispatch, top.model.viewWidth, top.model.viewHeight,
      top.headerHeight, top.breadcrumbsHeight, top.horizontalRuleHeight,
      top.messageFooterHeight, hwrap]
  · intro hlo hhi
    apply wrapInt_of_mem
    · unfold minInt at *; omega
    · unfold maxInt at *; omega

/-- Instance of C12 on an 80 by 24 terminal resized to 120 by 40: the
navigator is told 120 by 34 and the command carries a resize to 120 by 34. -/
theorem top_Update_WindowSizeMsg_witness :
    smallTerminal.Update loggingDeps (top.Msg.WindowSizeMsg 120 40) [] =
      (({ navigator := { width := 120, height := 34, rest := () },
          width := 120, height := 40, showHelp := false, err := "", dump := false },
        top.Cmd.send (top.Msg.BodyResizeMsg 120 34)), []) ∧
    wrapInt (40 - 6) = 40 - 6 :=
  ⟨(top_Update_WindowSizeMsg loggingDeps smallTerminal 120 40 []).1,
    (top_Update_WindowSizeMsg loggingDeps smallTerminal 120 40 []).2.2 (by decide) (by decide)⟩

end tui

namespace internal

/-! ## Toggling the help of the main model -/

theorem help_twice_gives_last {σ τ μ κ ω : Type} (ops : model σ τ μ κ ω) (d : Deps σ τ ω)
    (m : mainModel σ) (k : String) (w : ω) (hcur : m.current ≠ helpState)
    (hquit : tui.Matches k d.keys.Quit = false) (hmod : tui.Matches k d.keys.Modules = false)
    (hhelp : tui.Matches k d.keys.Help = true) :
    m.Update ops d (Msg.KeyMsg k) w = some (({ m with current := helpState }, Cmd.nil), w) ∧
    ({ m with current := helpState } : mainModel σ).Update ops d (Msg.KeyMsg k) w =
      some (({ m with current := m.last }, Cmd.nil), w) := by
  simp [mainModel.Update, hquit, hmod, hhelp, hcur]

/-- C11: the help toggle of the main model does not come back to the task
state.  From the main model as constructed, a `newTaskMsg` leads to the task
state with `last` still at its zero value, the help key leads from there to
the help state, and the help key again leads to `m.last`, the modules state,
not to the task state the toggle started from; the two cached models are the
same throughout. -/
theorem help_toggle_leaves_task_state :
    freshMain.Update countingModel countingDeps (Msg.newTaskMsg "plan" "infra/vpc") () =
      some ((onTask, Cmd.nil), ()) ∧
    onTask.current = taskState ∧
    onTask.Update countingModel countingDeps (Msg.KeyMsg "?") () =
      some (({ onTask with current := helpState }, Cmd.nil), ()) ∧
    ({ onTask with current := helpState } : mainModel Nat).Update countingModel countingDeps
        (Msg.KeyMsg "?") () =
      some (({ onTask with current := modulesState }, Cmd.nil), ()) ∧
    modulesState ≠ taskState := by
  refine ⟨?_, rfl, ?_, ?_, by decide⟩
  · simp [mainModel.Update, freshMain, onTask, countingModel, countingDeps]
  · simp [mainModel.Update, onTask, countingDeps, mainKeys, tui.Matches, tui.Binding.Enabled,
      taskState, helpState]
  · simp [mainModel.Update, onTask, countingDeps, mainKeys, tui.Matches, tui.Binding.Enabled,
      helpState, modulesState]

end internal
